import Mathlib

/-!
Verification development for the TSPA persistence library (TypeScript).

The library exposes one CRUD contract over three backends:
  * `MongoCrudRepository`  (document database, `src/main/repositories/MongoCrudRepository.ts`)
  * `FirestoreCrudRepository` (cloud document store)
  * `LocalStorageCrudRepository` (local key-value store, the revision that keys
    entries by `"<id>:<deleted-flag>"`)
together with the shared entity-lifecycle helpers in `src/main/utils/entity-utils.ts`.

Entities are plain JavaScript objects.  They are embedded as insertion-ordered
association lists from string keys to primitive values (`JsObj`), which mirrors
JavaScript object key ordering, object spread, and `Object.keys` iteration.
Timestamps (`Date.now()`) are modelled by an explicit `now : Nat` argument, one
tick per repository operation; generated ids (`commonUtils.generate()`) by an
explicit generator argument.  Backend failures are modelled with `Except`.
-/

/-- Primitive JavaScript values stored in entity fields: strings, numbers
(timestamps/versions, modelled as `Nat`), and booleans. -/
inductive Val where
  | s : String → Val
  | n : Nat → Val
  | b : Bool → Val
deriving DecidableEq, Repr

/-- A JavaScript object: insertion-ordered list of key/value pairs.
A key occurs at most once in well-formed objects; lookup takes the first hit. -/
abbrev JsObj := List (String × Val)

/-- Property read `o[k]`; `none` models JavaScript `undefined` (absent key). -/
def oget (o : JsObj) (k : String) : Option Val :=
  (o.find? (fun kv => kv.1 = k)).map (·.2)

/-- Property write `o[k] = v`: replaces the value in place when the key exists
(keeping its position, as JavaScript does) and appends the key otherwise. -/
def oset (o : JsObj) (k : String) (v : Val) : JsObj :=
  if o.any (fun kv => kv.1 = k) then
    o.map (fun kv => if kv.1 = k then (k, v) else kv)
  else o ++ [(k, v)]

/-- Object spread `\x7b...base, ...upd\x7d`: keys of `base` keep their order but take
`upd`'s value when `upd` also has the key; keys only in `upd` are appended. -/
def omerge (base upd : JsObj) : JsObj :=
  (base.map (fun kv =>
    match upd.find? (fun kv2 => kv2.1 = kv.1) with
    | some kv2 => (kv.1, kv2.2)
    | none => kv)) ++
  upd.filter (fun kv2 => ¬ base.any (fun kv => kv.1 = kv2.1))

/-- The id field of a payload read as a string, `""` when absent or not a
string (TypeScript `payload.id!` on an id-less payload). -/
def rawIdStr (p : JsObj) : String :=
  match oget p "id" with
  | some (Val.s s) => s
  | _ => ""

/-- String emptiness per `commonUtils.isEmpty`: `arg.trim().length === 0`,
modelled as "every character is whitespace" (ids never contain braces, so the
brace special case of `isEmpty` is inert). -/
def isBlank (s : String) : Bool := s.data.all (fun c => c.isWhitespace)

/-- The id carried by a payload, `none` when the id is absent or blank
(`commonUtils.isEmpty` treats `undefined` and all-whitespace strings as empty). -/
def payloadIdOpt (p : JsObj) : Option String :=
  match oget p "id" with
  | some (Val.s s) => if isBlank s then none else some s
  | _ => none

/-! ## Entity lifecycle helpers (`src/main/utils/entity-utils.ts`) -/

/-- Emptiness of a numeric field per `commonUtils.isAnyEmpty`: `undefined` and
`0` count as empty (`NaN` has no counterpart in the `Nat` model). -/
def isEmptyNumber : Option Val → Bool
  | none => true
  | some (Val.n 0) => true
  | some _ => false

/-- Source `getNextVersion(version?: number)`: `1` when the version is
`undefined`, `version + 1` otherwise (versions are always numbers). -/
def getNextVersion : Option Val → Nat
  | some (Val.n v) => v + 1
  | _ => 1

/-- Source `updatePayload(payload)`: stamps `version`, `dateCreated` (only when
empty), `dateUpdated`, and defaults `deleted` to `false`.  Mutates the payload
in TypeScript; here it returns the mutated object. -/
def updatePayload (now : Nat) (p : JsObj) : JsObj :=
  let p1 := oset p "version" (Val.n (getNextVersion (oget p "version")))
  let p2 := oset p1 "dateCreated"
      (if isEmptyNumber (oget p1 "dateCreated") then Val.n now
       else (oget p1 "dateCreated").getD (Val.n now))
  let p3 := oset p2 "dateUpdated" (Val.n now)
  oset p3 "deleted" ((oget p3 "deleted").getD (Val.b false))

/-- Source `markAsDeleted(payload)`: sets `deleted = true` and
`dateDeleted = Date.now()`. -/
def markAsDeleted (now : Nat) (p : JsObj) : JsObj :=
  oset (oset p "deleted" (Val.b true)) "dateDeleted" (Val.n now)

/-- Entries of a batch that carry a (non-empty) id: source
`payload.filter((entity) => !commonUtils.isEmpty(entity.id))`. -/
def entitiesWithIds (l : List JsObj) : List JsObj :=
  l.filter (fun e => (payloadIdOpt e).isSome)

/-- Composite key used by `entityUtils.unique` for the key list `['id']`:
the id itself.  Items without a truthy id would get a freshly generated key
(never colliding); the adapters only ever pass entries that do carry an id. -/
def batchKey (e : JsObj) : String := rawIdStr e

/-- Source `checkForDuplicates(payload, ['id'])` applied to the id-carrying
entries: `unique` keeps one entry per distinct id (an insertion-ordered map
keyed by id), and the check fails when that count differs from the input
count, i.e. exactly when two entries share an id. -/
def hasBatchDuplicates (l : List JsObj) : Bool :=
  let withIds := entitiesWithIds l
  ((withIds.map batchKey).dedup).length ≠ withIds.length

/-- Error kinds raised by the repositories (exception classes in the source). -/
inductive RepoError where
  | duplicateRecord
  | invalidRequest
  | recordNotFound
  | optimisticLock
  | internal
deriving DecidableEq, Repr

/-- The `LogicalOperator` enum from `src/main/types/core.ts`. -/
inductive LogicalOperator where
  | and
  | or
  | nor
deriving DecidableEq, Repr

-- sanity checks (concrete evaluations of the lifecycle helpers)
example : oget (updatePayload 7 [("name", Val.s "A")]) "version" = some (Val.n 1) := by decide
example : oget (updatePayload 7 [("version", Val.n 3)]) "version" = some (Val.n 4) := by decide
example : oget (updatePayload 7 [("name", Val.s "A")]) "dateCreated" = some (Val.n 7) := by decide
example : oget (updatePayload 7 [("dateCreated", Val.n 5)]) "dateCreated" = some (Val.n 5) := by decide
example : hasBatchDuplicates [[("id", Val.s "a")], [("id", Val.s "a")]] = true := by decide
example : hasBatchDuplicates [[("id", Val.s "a")], [("id", Val.s "b")]] = false := by decide
example : hasBatchDuplicates [[("x", Val.n 1)], [("y", Val.n 2)]] = false := by decide

/-! ## Document-database adapter (`MongoCrudRepository.ts`)

A collection is a list of documents in insertion (natural) order.  Every
document written by the adapter carries `id` and `_id` (both set to the same
string).  Query sorting is modelled with `List.insertionSort`, a stable sort. -/

abbrev MongoStore := List JsObj

/-- Match of the `findById` filter `\x7bdeleted: \x7b$ne: true\x7d, id: \x7b$eq: id\x7d\x7d`:
`$ne: true` also matches documents missing the field; `$eq` on a string never
matches a missing field. -/
def mongoByIdMatch (id : String) (d : JsObj) : Bool :=
  ¬ (oget d "deleted" = some (Val.b true)) ∧ oget d "id" = some (Val.s id)

/-- Source `findById`: `EntityModel.findOne` over the collection, i.e. the
first document matching the id filter. -/
def mongoFindById (id : String) (store : MongoStore) : Option JsObj :=
  store.find? (mongoByIdMatch id)

/-- The compiled shape of `createFilter`:
`flat` is `createFilterOnly` (one object conjoining `\x7bdeleted: \x7b$ne: true\x7d\x7d`
with `\x7bk: \x7b$eq: v, $exists: true\x7d\x7d` per filter key); `grouped op` is
`\x7b$and: [\x7bdeleted: \x7b$ne: true\x7d\x7d, \x7b$op: [per-field queries]\x7d]\x7d`. -/
inductive MongoCompiled where
  | flat : List (String × Val) → MongoCompiled
  | grouped : LogicalOperator → List (String × Val) → MongoCompiled
deriving DecidableEq, Repr

/-- Source `createFilter(filter, queryOptions)`: `createFilterOnly` when the
logical operator is absent or `AND`, otherwise the `$and`-of-`$or`/`$nor`
grouping. -/
def mongoCreateFilter (filter : List (String × Val)) (lop : Option LogicalOperator) :
    MongoCompiled :=
  match lop with
  | none => .flat filter
  | some .and => .flat filter
  | some op => .grouped op filter

/-- MongoDB evaluation of `\x7bdeleted: \x7b$ne: true\x7d\x7d`. -/
def notDeletedM (d : JsObj) : Bool := ¬ (oget d "deleted" = some (Val.b true))

/-- MongoDB evaluation of `\x7bk: \x7b$eq: v, $exists: true\x7d\x7d`: the field is
present with value `v` (for non-null `v`, `$eq` alone already excludes missing
fields, so `$exists: true` is redundant). -/
def fieldEqM (d : JsObj) (kv : String × Val) : Bool := oget d kv.1 = some kv.2

/-- MongoDB evaluation of a compiled filter against one document. -/
def evalMongoFilter : MongoCompiled → JsObj → Bool
  | .flat fs, d => notDeletedM d && fs.all (fieldEqM d)
  | .grouped op fs, d =>
    notDeletedM d &&
      (match op with
       | .and => fs.all (fieldEqM d)
       | .or => fs.any (fieldEqM d)
       | .nor => !(fs.any (fieldEqM d)))

/-- Numeric `dateCreated` of a document (`0` when absent; written documents
always carry it). -/
def dateCreatedNum (d : JsObj) : Nat :=
  match oget d "dateCreated" with
  | some (Val.n t) => t
  | _ => 0

/-- Sort rank of the `deleted` field (`true` sorts above `false` descending). -/
def deletedRank (d : JsObj) : Nat :=
  if oget d "deleted" = some (Val.b true) then 1 else 0

/-- Comparator for `sort(\x7bdateCreated: -1\x7d)`: descending by `dateCreated`. -/
def dcDescLe (a b : JsObj) : Prop := dateCreatedNum b ≤ dateCreatedNum a

instance : DecidableRel dcDescLe := fun _ _ => Nat.decLe _ _

instance : IsTotal JsObj dcDescLe :=
  ⟨fun a b => Nat.le_total (dateCreatedNum b) (dateCreatedNum a)⟩

instance : IsTrans JsObj dcDescLe :=
  ⟨fun _ _ _ h1 h2 => Nat.le_trans h2 h1⟩

/-- Comparator for `sort(\x7bdeleted: -1, dateCreated: -1\x7d)`: descending by
`deleted`, then descending by `dateCreated`. -/
def delDcDescLe (a b : JsObj) : Prop :=
  deletedRank b < deletedRank a ∨
    (deletedRank a = deletedRank b ∧ dateCreatedNum b ≤ dateCreatedNum a)

instance : DecidableRel delDcDescLe := fun _ _ => by
  unfold delDcDescLe; infer_instance

instance : IsTotal JsObj delDcDescLe := by
  constructor
  intro a b
  unfold delDcDescLe
  rcases Nat.lt_trichotomy (deletedRank a) (deletedRank b) with h | h | h
  · exact Or.inr (Or.inl h)
  · rcases Nat.le_total (dateCreatedNum b) (dateCreatedNum a) with h2 | h2
    · exact Or.inl (Or.inr ⟨h, h2⟩)
    · exact Or.inr (Or.inr ⟨h.symm, h2⟩)
  · exact Or.inl (Or.inl h)

instance : IsTrans JsObj delDcDescLe := by
  constructor
  intro a b c h1 h2
  unfold delDcDescLe at *
  rcases h1 with h1 | ⟨h1e, h1d⟩
  · rcases h2 with h2 | ⟨h2e, h2d⟩
    · exact Or.inl (Nat.lt_trans h2 h1)
    · exact Or.inl (h2e ▸ h1)
  · rcases h2 with h2 | ⟨h2e, h2d⟩
    · exact Or.inl (h1e ▸ h2)
    · exact Or.inr ⟨h1e.trans h2e, Nat.le_trans h2d h1d⟩

/-- Source `_findAll` (the no-filter path of `findAll`): all documents matching
`createFilter(\x7b\x7d, queryOptions)`, sorted `\x7bdeleted: -1, dateCreated: -1\x7d`. -/
def mongoFindAllNoFilter (lop : Option LogicalOperator) (store : MongoStore) : List JsObj :=
  List.insertionSort delDcDescLe
    (store.filter (evalMongoFilter (mongoCreateFilter [] lop)))

/-- Source `findBy` (the filtered path of `findAll`): all documents matching
`createFilter(filter, queryOptions)`, sorted `\x7bdateCreated: -1\x7d`. -/
def mongoFindBy (filter : List (String × Val)) (lop : Option LogicalOperator)
    (store : MongoStore) : List JsObj :=
  List.insertionSort dcDescLe
    (store.filter (evalMongoFilter (mongoCreateFilter filter lop)))

/-- Source `create`: stamps the caller's payload in place (`updatePayload`),
then resolves the id (`getId`: generate when empty, otherwise the
`checkDuplicateId` point lookup), then saves `\x7b...payload, id, _id: id\x7d`.
Returns (call result, collection after the call, caller's payload object after
the call). -/
def mongoCreate (gen : String) (now : Nat) (p : JsObj) (store : MongoStore) :
    Except RepoError JsObj × MongoStore × JsObj :=
  let p1 := updatePayload now p
  match payloadIdOpt p1 with
  | none =>
    let doc := oset (oset p1 "id" (Val.s gen)) "_id" (Val.s gen)
    (.ok doc, store ++ [doc], p1)
  | some id =>
    if (mongoFindById id store).isSome then
      (.error .duplicateRecord, store, p1)
    else
      let doc := oset (oset p1 "id" (Val.s id)) "_id" (Val.s id)
      (.ok doc, store ++ [doc], p1)

/-- Body of `createAll`'s per-item mapping: stamp, resolve id (generating a
fresh one at position `i` when empty, else the duplicate-id point lookup
against the pre-insert collection), and build `\x7b...item, id, _id: id\x7d`. -/
def mongoResolveDocs (gen : Nat → String) (now : Nat) (store : MongoStore) :
    Nat → List JsObj → Except RepoError (List JsObj)
  | _, [] => .ok []
  | i, p :: rest =>
    let p1 := updatePayload now p
    let idRes : Except RepoError String :=
      match payloadIdOpt p1 with
      | none => .ok (gen i)
      | some id =>
        if (mongoFindById id store).isSome then .error .duplicateRecord
        else .ok id
    match idRes with
    | .error e => .error e
    | .ok id =>
      match mongoResolveDocs gen now store (i + 1) rest with
      | .error e => .error e
      | .ok docs => .ok (oset (oset p1 "id" (Val.s id)) "_id" (Val.s id) :: docs)

/-- Source `createAll`: empty input returns `[]` with no backend call; the
batch duplicate check (`checkForDuplicates` over the id-carrying entries) runs
before any write; then every item is stamped and id-resolved and the batch is
inserted with `insertMany`. -/
def mongoCreateAll (gen : Nat → String) (now : Nat) (payload : List JsObj)
    (store : MongoStore) : Except RepoError (List JsObj) × MongoStore :=
  if payload.length = 0 then (.ok [], store)
  else if hasBatchDuplicates payload then (.error .invalidRequest, store)
  else
    match mongoResolveDocs gen now store 0 payload with
    | .error e => (.error e, store)
    | .ok docs => (.ok docs, store ++ docs)

/-- Source `performUpdate(record, payload, _, markDeleted)`: merge the payload
over the current record, re-stamp (`updatePayload`, then `markAsDeleted` when
soft-deleting), and issue `updateOne` on the document with the record's `_id`
(a `$set` of the merged record's fields). -/
def mongoPerformUpdate (now : Nat) (record payload : JsObj) (markDeleted : Bool)
    (store : MongoStore) : MongoStore :=
  let merged := updatePayload now (omerge record payload)
  let updatedRecord := if markDeleted then markAsDeleted now merged else merged
  store.map (fun d =>
    if oget d "_id" = oget record "_id" then omerge d updatedRecord else d)

/-- Source `update`: resolve the current record via `findById`
(`record-not-found` when absent), reject on optimistic version mismatch
before any write, otherwise `performUpdate`. -/
def mongoUpdate (now : Nat) (id : String) (payload : JsObj) (optimistic : Bool)
    (store : MongoStore) : Except RepoError Bool × MongoStore :=
  match mongoFindById id store with
  | none => (.error .recordNotFound, store)
  | some record =>
    if optimistic ∧ ¬ (oget record "version" = oget payload "version") then
      (.error .optimisticLock, store)
    else
      (.ok true, mongoPerformUpdate now record payload false store)

/-- Source `hardDelete`: `deleteOne(createFilter(\x7bid\x7d))` removes the first
document matching the (non-deleted ∧ id) filter; returns `deletedCount === 1`. -/
def mongoDeleteFirst (p : JsObj → Bool) : MongoStore → MongoStore × Nat
  | [] => ([], 0)
  | d :: rest =>
    if p d then (rest, 1)
    else
      let r := mongoDeleteFirst p rest
      (d :: r.1, r.2)

/-- Source `remove`: resolve via `findById` (`record-not-found` when absent);
soft delete routes through `performUpdate(record, record, _, true)`, hard
delete through `deleteOne`. -/
def mongoRemove (now : Nat) (id : String) (softDelete : Bool) (store : MongoStore) :
    Except RepoError Bool × MongoStore :=
  match mongoFindById id store with
  | none => (.error .recordNotFound, store)
  | some record =>
    if softDelete then
      (.ok true, mongoPerformUpdate now record record true store)
    else
      let r := mongoDeleteFirst
        (evalMongoFilter (mongoCreateFilter [("id", Val.s id)] none)) store
      (.ok (r.2 = 1), r.1)

/-! ## Local key-value adapter (`LocalStorageCrudRepository.ts`)

The whole collection is one JSON blob per storage key; `LocalStore = none`
models an absent or empty stored string.  Inside the blob, entries are keyed
by `"<id>:false"` (active) or `"<id>:true"` (soft-deleted), in insertion
order, mirroring `JSON.parse`/`Object.keys`. -/

abbrev LocalBlob := List (String × JsObj)

abbrev LocalStore := Option LocalBlob

/-- Blob read `jsonValue[key]`. -/
def blobGet (o : LocalBlob) (k : String) : Option JsObj :=
  (o.find? (fun kv => kv.1 = k)).map (·.2)

/-- Blob write `object[key] = item` (replace in place or append). -/
def blobSet (o : LocalBlob) (k : String) (v : JsObj) : LocalBlob :=
  if o.any (fun kv => kv.1 = k) then
    o.map (fun kv => if kv.1 = k then (k, v) else kv)
  else o ++ [(k, v)]

/-- Blob delete `delete object[key]`. -/
def blobDelete (o : LocalBlob) (k : String) : LocalBlob :=
  o.filter (fun kv => ¬ (kv.1 = k))

/-- Source `getActiveKey(id)`. -/
def getActiveKey (id : String) : String := id ++ ":false"

/-- Source `getInactiveKey(id)`. -/
def getInactiveKey (id : String) : String := id ++ ":true"

/-- Source `findById`: parse the blob and read the record under the active
key; empty storage yields an empty result. -/
def localFindById (id : String) (store : LocalStore) : Option JsObj :=
  match store with
  | none => none
  | some o => blobGet o (getActiveKey id)

/-- Truthiness of `item.deleted` (the `if (item.deleted) return;` skip). -/
def itemDeletedTruthy (item : JsObj) : Bool :=
  oget item "deleted" = some (Val.b true)

/-- Source `findAll(filter = \x7b\x7d, ...)`: for each key of the filter in turn,
push every non-deleted record whose value at that key equals the filter value
(`Object.keys(item).includes(key) && item[key] === value`).  With the default
empty filter the outer loop body never runs, so the result is `[]`.  No
ordering or deduplication is applied. -/
def localFindAll (filter : List (String × Val)) (store : LocalStore) : List JsObj :=
  match store with
  | none => []
  | some o =>
    filter.flatMap (fun kv =>
      (o.filter (fun rkv =>
        ¬ itemDeletedTruthy rkv.2 ∧ oget rkv.2 kv.1 = some kv.2)).map (·.2))

/-- Source `findOneBy`: scan the blob, skip deleted records, and keep the last
record for which SOME key of the record matches the filter at that key (the
whole-object `Object.keys(item).some(...)` match). -/
def localFindOneBy (filter : List (String × Val)) (store : LocalStore) : Option JsObj :=
  match store with
  | none => none
  | some o =>
    o.foldl (fun acc rkv =>
      if itemDeletedTruthy rkv.2 then acc
      else if rkv.2.any (fun kv => oget filter kv.1 = some kv.2) then some rkv.2
      else acc) none

/-- The write half of `create` (after `getId` resolved `id`): read the blob,
stamp the caller's payload, store `\x7b...payload, id\x7d` under the active key.
Returns (result, blob after, caller's payload object after). -/
def localCreateWrite (id : String) (now : Nat) (p : JsObj) (store : LocalStore) :
    Except RepoError JsObj × LocalStore × JsObj :=
  let o := store.getD []
  let p1 := updatePayload now p
  let item := oset p1 "id" (Val.s id)
  (.ok item, some (blobSet o (getActiveKey id) item), p1)

/-- Source `create`: `getId` first (generate when the payload id is empty,
otherwise the `checkDuplicateId` point lookup, which throws BEFORE the payload
is stamped), then the write.  Returns (result, store after, payload after). -/
def localCreate (gen : String) (now : Nat) (p : JsObj) (store : LocalStore) :
    Except RepoError JsObj × LocalStore × JsObj :=
  match payloadIdOpt p with
  | none => localCreateWrite gen now p store
  | some id =>
    if (localFindById id store).isSome then (.error .duplicateRecord, store, p)
    else localCreateWrite id now p store

/-- Sequential composition of the per-item `create` calls made by `createAll`
(the source starts them as parallel promises, but each call's read-modify-write
is atomic in the model; the claims under study concern the pre-write checks). -/
def localCreateSeq (gen : Nat → String) (now : Nat) :
    Nat → List JsObj → LocalStore → Except RepoError (List JsObj) × LocalStore
  | _, [], store => (.ok [], store)
  | i, p :: rest, store =>
    match localCreate (gen i) now p store with
    | (.error e, store1, _) => (.error e, store1)
    | (.ok item, store1, _) =>
      match localCreateSeq gen now (i + 1) rest store1 with
      | (.error e, store2) => (.error e, store2)
      | (.ok items, store2) => (.ok (item :: items), store2)

/-- Source `createAll`: empty input returns `[]` with no storage access; the
batch duplicate check runs before any `create`; then each entry is created. -/
def localCreateAll (gen : Nat → String) (now : Nat) (payload : List JsObj)
    (store : LocalStore) : Except RepoError (List JsObj) × LocalStore :=
  if payload.length = 0 then (.ok [], store)
  else if hasBatchDuplicates payload then (.error .invalidRequest, store)
  else localCreateSeq gen now 0 payload store

/-- Source `performUpdate(payload, object)`: stamp the merged payload and
store it under `getActiveKey(payload.id!)`. -/
def localPerformUpdate (now : Nat) (payload : JsObj) (o : LocalBlob) :
    Except RepoError Bool × LocalStore :=
  let payload1 := updatePayload now payload
  (.ok true, some (blobSet o (getActiveKey (rawIdStr payload1)) payload1))

/-- Source `update`: `findExpectedRecord(getActiveKey(id))` (record-not-found
when storage is empty or the active key is absent), the optimistic-lock
version check before any write, then
`performUpdate(\x7b...record, ...payload\x7d, object)`. -/
def localUpdate (now : Nat) (id : String) (payload : JsObj) (optimistic : Bool)
    (store : LocalStore) : Except RepoError Bool × LocalStore :=
  match store with
  | none => (.error .recordNotFound, store)
  | some o =>
    match blobGet o (getActiveKey id) with
    | none => (.error .recordNotFound, store)
    | some record =>
      if optimistic ∧ ¬ (oget record "version" = oget payload "version") then
        (.error .optimisticLock, store)
      else
        localPerformUpdate now (omerge record payload) o

/-- Source `softDelete(record, object)`: drop the active entry, mark the
record deleted, re-stamp it, and store it under the inactive key. -/
def localSoftDelete (now : Nat) (record : JsObj) (o : LocalBlob) :
    Except RepoError Bool × LocalStore :=
  let o1 := blobDelete o (getActiveKey (rawIdStr record))
  let r1 := updatePayload now (markAsDeleted now record)
  (.ok true, some (blobSet o1 (getInactiveKey (rawIdStr r1)) r1))

/-- Source `remove`: resolve the active record (record-not-found when absent);
`deletionOptions.softDelete` (default `true`) routes to `softDelete`,
otherwise `hardDelete(activeKey, object)` erases the active entry. -/
def localRemove (now : Nat) (id : String) (softDelete : Bool) (store : LocalStore) :
    Except RepoError Bool × LocalStore :=
  match store with
  | none => (.error .recordNotFound, store)
  | some o =>
    match blobGet o (getActiveKey id) with
    | none => (.error .recordNotFound, store)
    | some record =>
      if softDelete then localSoftDelete now record o
      else (.ok true, some (blobDelete o (getActiveKey id)))

/-! ## Cloud-document adapter (`FirestoreCrudRepository.ts`)

A collection maps document ids to document data, in creation order.  The
Firestore operators `==` and `!=` never match documents that lack the field. -/

abbrev FsStore := List (String × JsObj)

/-- Document write `setDoc(doc(collection, id), data)`. -/
def fsSet (store : FsStore) (id : String) (d : JsObj) : FsStore :=
  if store.any (fun kd => kd.1 = id) then
    store.map (fun kd => if kd.1 = id then (id, d) else kd)
  else store ++ [(id, d)]

/-- Firestore `where('deleted', '!=', true)`: matches only documents that DO
carry the field with a value other than `true`. -/
def fsNotDeleted (d : JsObj) : Bool :=
  match oget d "deleted" with
  | some v => ¬ (v = Val.b true)
  | none => false

/-- Firestore `where(key, '==', value)`: the field is present and equal. -/
def fsFieldEq (d : JsObj) (kv : String × Val) : Bool := oget d kv.1 = some kv.2

/-- Source `findById`: `getDocs(query(byId, byDelete))` and take the first
document of the result (document order approximated by store order). -/
def fsFindById (id : String) (store : FsStore) : Option JsObj :=
  ((store.find? (fun kd =>
      fsFieldEq kd.2 ("id", Val.s id) && fsNotDeleted kd.2))).map (·.2)

/-- The compiled shape of `createQuery`: `conj` is the AND branch
(`query(ref, deletionConstraint, ...filterArray)`); `group` is the other
branch, `query(ref, and(deletionConstraint, or(...filterArray)))` — note the
source uses `or(...)` there for every non-AND operator, `NOR` included. -/
inductive FsCompiled where
  | conj : List (String × Val) → FsCompiled
  | group : List (String × Val) → FsCompiled
deriving DecidableEq, Repr

/-- Source `createQuery`'s constraint selection. -/
def fsCreateQuery (filter : List (String × Val)) (lop : Option LogicalOperator) :
    FsCompiled :=
  match lop with
  | none => .conj filter
  | some .and => .conj filter
  | some _ => .group filter

/-- Firestore evaluation of a compiled query against one document. -/
def evalFsQuery : FsCompiled → JsObj → Bool
  | .conj fs, d => fsNotDeleted d && fs.all (fsFieldEq d)
  | .group fs, d => fsNotDeleted d && fs.any (fsFieldEq d)

/-- Ordering from `getOrderConstraints`: `orderBy('deleted', 'desc')` then
`orderBy('dateCreated', 'desc')` (same comparator as the Mongo two-key sort). -/
def fsOrdered (docs : List JsObj) : List JsObj :=
  List.insertionSort delDcDescLe docs

/-- Source `_findBy(filter, queryOptions)`: documents matching the compiled
query, in query order. -/
def fsFindByDocs (filter : List (String × Val)) (lop : Option LogicalOperator)
    (store : FsStore) : List JsObj :=
  fsOrdered ((store.filter (fun kd => evalFsQuery (fsCreateQuery filter lop) kd.2)).map (·.2))

/-- Source `findAll` with a filter: `_findBy`, then the explicit JavaScript
re-sort of the snapshot docs by `dateCreated` descending. -/
def fsFindAllFiltered (filter : List (String × Val)) (lop : Option LogicalOperator)
    (store : FsStore) : List JsObj :=
  List.insertionSort dcDescLe (fsFindByDocs filter lop store)

/-- Source `findAll` without a filter (`_findAll`): `_findBy(\x7b\x7d)`, i.e. the
deletion constraint only, in query (orderBy) order, with no JS re-sort. -/
def fsFindAllNoFilter (lop : Option LogicalOperator) (store : FsStore) : List JsObj :=
  fsFindByDocs [] lop store

/-- Source `create`: stamp the caller's payload in place, resolve the id
(`getId`, throwing duplicate-record BEFORE `payload.id` is assigned), then
`payload.id = id` and `setDoc`.  Returns (result, store after, caller's
payload object after the call). -/
def fsCreate (gen : String) (now : Nat) (p : JsObj) (store : FsStore) :
    Except RepoError JsObj × FsStore × JsObj :=
  let p1 := updatePayload now p
  match payloadIdOpt p1 with
  | none =>
    let doc := oset p1 "id" (Val.s gen)
    (.ok doc, fsSet store gen doc, doc)
  | some id =>
    if (fsFindById id store).isSome then (.error .duplicateRecord, store, p1)
    else
      let doc := oset p1 "id" (Val.s id)
      (.ok doc, fsSet store id doc, doc)

/-- Source `performUpdate(record, payload)` as called from `update` (with
`payload` a DIFFERENT object from `record`): stamp the record, then
`updateDoc(doc(ref, record.id), \x7b...record, ...payload\x7d)` — the stamped
version/timestamps are overridden by any field the caller's payload carries. -/
def fsPerformUpdate (now : Nat) (record payload : JsObj) (store : FsStore) :
    Except RepoError Bool × FsStore :=
  let record1 := updatePayload now record
  let upd := omerge record1 payload
  let docId := rawIdStr record
  (.ok true,
    store.map (fun kd => if kd.1 = docId then (kd.1, omerge kd.2 upd) else kd))

/-- Source `update`: resolve via `findById` (record-not-found when absent),
optimistic version check before any write, then `performUpdate`. -/
def fsUpdate (now : Nat) (id : String) (payload : JsObj) (optimistic : Bool)
    (store : FsStore) : Except RepoError Bool × FsStore :=
  match fsFindById id store with
  | none => (.error .recordNotFound, store)
  | some record =>
    if optimistic ∧ ¬ (oget record "version" = oget payload "version") then
      (.error .optimisticLock, store)
    else fsPerformUpdate now record payload store

/-- Source `softDelete(record)`: `markAsDeleted(record)` then
`performUpdate(record, record)`.  Record and payload are THE SAME object, so
the spread `\x7b...record, ...payload\x7d` sees the stamped object on both sides
and the stamped version survives. -/
def fsSoftDelete (now : Nat) (record : JsObj) (store : FsStore) :
    Except RepoError Bool × FsStore :=
  let r1 := updatePayload now (markAsDeleted now record)
  let docId := rawIdStr record
  (.ok true,
    store.map (fun kd => if kd.1 = docId then (kd.1, omerge kd.2 r1) else kd))

/-- Source `remove`: resolve via `findById` (record-not-found when absent);
soft delete by default, otherwise `deleteDoc(doc(ref, record.id))`. -/
def fsRemove (now : Nat) (id : String) (softDelete : Bool) (store : FsStore) :
    Except RepoError Bool × FsStore :=
  match fsFindById id store with
  | none => (.error .recordNotFound, store)
  | some record =>
    if softDelete then fsSoftDelete now record store
    else (.ok true, store.filter (fun kd => ¬ (kd.1 = rawIdStr record)))

/-- Per-item body of `createAll`'s batch construction: stamp each entity; an
entity without id gets a fresh document reference and `\x7b...entity, id\x7d` goes
into the batch; an entity with id runs the duplicate-id point lookup against
the pre-commit store and goes into the batch unchanged.  Returns the batched
writes plus the (mutated) entities the call would return. -/
def fsBatchResolve (gen : Nat → String) (now : Nat) (store : FsStore) :
    Nat → List JsObj → Except RepoError (List (String × JsObj) × List JsObj)
  | _, [] => .ok ([], [])
  | i, e :: rest =>
    let e1 := updatePayload now e
    match payloadIdOpt e1 with
    | none =>
      let id := gen i
      let record := oset e1 "id" (Val.s id)
      match fsBatchResolve gen now store (i + 1) rest with
      | .error err => .error err
      | .ok (sets, outs) => .ok ((id, record) :: sets, e1 :: outs)
    | some id =>
      if (fsFindById id store).isSome then .error .duplicateRecord
      else
        match fsBatchResolve gen now store (i + 1) rest with
        | .error err => .error err
        | .ok (sets, outs) => .ok ((id, e1) :: sets, e1 :: outs)

/-- Source `createAll`: empty input returns `[]` immediately; the batch
duplicate check runs before the batch is built; the whole batch commits
atomically at the end (`batch.commit()`), so any failure leaves the store
untouched. -/
def fsCreateAll (gen : Nat → String) (now : Nat) (payload : List JsObj)
    (store : FsStore) : Except RepoError (List JsObj) × FsStore :=
  if payload.length = 0 then (.ok [], store)
  else if hasBatchDuplicates payload then (.error .invalidRequest, store)
  else
    match fsBatchResolve gen now store 0 payload with
    | .error e => (.error e, store)
    | .ok (sets, outs) =>
      (.ok outs, sets.foldl (fun st kd => fsSet st kd.1 kd.2) store)

/-! ## Transaction coordinator (`MongoCrudRepository.executeTransaction`)

The body callback is modelled by its outcome (`Except E R`), and the driver
calls `commitTransaction`/`abortTransaction` by their possible failures
(`Option E`, `none` = success).  `endSession` sits in a `finally` block and is
modelled as infallible. -/

/-- Session lifecycle flags observable after `executeTransaction` returns. -/
structure TxSession where
  started : Bool
  committed : Bool
  aborted : Bool
  ended : Bool
deriving DecidableEq, Repr

/-- Source `executeTransaction`: start a session and a transaction; run the
body; on success commit and return the result; on any error (from the body or
from the commit) abort and rethrow; `endSession` runs in `finally` on every
path.  An error thrown by `abortTransaction` itself propagates in place of the
error being handled (plain JavaScript `throw` semantics in a `catch` block). -/
def executeTransaction {E R : Type} (body : Except E R)
    (commitFail abortFail : Option E) : Except E R × TxSession :=
  match body with
  | .ok r =>
    match commitFail with
    | none => (.ok r, ⟨true, true, false, true⟩)
    | some ce =>
      match abortFail with
      | none => (.error ce, ⟨true, false, true, true⟩)
      | some ae => (.error ae, ⟨true, false, false, true⟩)
  | .error e =>
    match abortFail with
    | none => (.error e, ⟨true, false, true, true⟩)
    | some ae => (.error ae, ⟨true, false, false, true⟩)

/-! ## Pointwise lemmas about the object model -/

theorem oget_cons (kv : String × Val) (t : JsObj) (k : String) :
    oget (kv :: t) k = if kv.1 = k then some kv.2 else oget t k := by
  by_cases h : kv.1 = k <;> simp [oget, List.find?_cons, h]

theorem oget_append (o1 o2 : JsObj) (k : String) :
    oget (o1 ++ o2) k = (oget o1 k).or (oget o2 k) := by
  induction o1 with
  | nil => simp [oget]
  | cons a t ih =>
    by_cases h : a.1 = k
    · simp [oget_cons, h, List.cons_append]
    · simpa [oget_cons, h, List.cons_append] using ih

theorem oget_none_iff_not_hasKey (o : JsObj) (k : String) :
    oget o k = none ↔ o.any (fun kv => kv.1 = k) = false := by
  induction o with
  | nil => simp [oget]
  | cons a t ih =>
    by_cases h : a.1 = k <;> simp [oget_cons, h, ih]

theorem oget_map_setKey_self (t : JsObj) (k : String) (v : Val)
    (ha : t.any (fun kv => kv.1 = k) = true) :
    oget (t.map (fun kv => if kv.1 = k then (k, v) else kv)) k = some v := by
  induction t with
  | nil => simp at ha
  | cons a u ih =>
    by_cases hak : a.1 = k
    · simp only [List.map_cons, if_pos hak]
      rw [oget_cons]
      simp
    · simp only [List.map_cons, if_neg hak]
      rw [oget_cons]
      simp only [hak, if_false]
      exact ih (by simpa [hak] using ha)

theorem oget_map_setKey_ne (t : JsObj) (k k' : String) (v : Val) (h : ¬ k' = k) :
    oget (t.map (fun kv => if kv.1 = k then (k, v) else kv)) k' = oget t k' := by
  induction t with
  | nil => simp [oget]
  | cons a u ih =>
    by_cases hak : a.1 = k
    · simp only [List.map_cons, if_pos hak]
      rw [oget_cons, oget_cons]
      have h1 : ¬ (k = k') := fun he => h he.symm
      have h2 : ¬ (a.1 = k') := by rw [hak]; exact h1
      simp only [h1, h2, if_false]
      exact ih
    · simp only [List.map_cons, if_neg hak]
      rw [oget_cons, oget_cons]
      by_cases hax : a.1 = k'
      · simp [hax]
      · simp only [hax, if_false]
        exact ih

theorem oget_oset_self (o : JsObj) (k : String) (v : Val) :
    oget (oset o k v) k = some v := by
  unfold oset
  by_cases ha : o.any (fun kv => kv.1 = k)
  · rw [if_pos ha]
    exact oget_map_setKey_self o k v ha
  · rw [if_neg ha, oget_append]
    rw [(oget_none_iff_not_hasKey o k).mpr (by rw [← Bool.not_eq_true]; exact ha)]
    simp [oget_cons]

theorem oget_oset_ne (o : JsObj) (k k' : String) (v : Val) (h : ¬ k' = k) :
    oget (oset o k v) k' = oget o k' := by
  unfold oset
  by_cases ha : o.any (fun kv => kv.1 = k)
  · rw [if_pos ha]
    exact oget_map_setKey_ne o k k' v h
  · rw [if_neg ha, oget_append, oget_cons]
    simp [show ¬ (k = k') from fun he => h he.symm, oget]

theorem oget_omerge_map (a b : JsObj) (k : String) (w : Val) (h : oget a k = some w) :
    oget (a.map (fun kv =>
      match b.find? (fun kv2 => kv2.1 = kv.1) with
      | some kv2 => (kv.1, kv2.2)
      | none => kv)) k = (oget b k).or (some w) := by
  induction a with
  | nil => simp [oget] at h
  | cons a0 t ih =>
    rw [oget_cons] at h
    by_cases h0 : a0.1 = k
    · rw [if_pos h0] at h
      injection h with hw
      simp only [List.map_cons]
      rw [h0]
      cases hb : b.find? (fun kv2 => kv2.1 = k) with
      | none =>
        simp only [hb]
        rw [oget_cons, if_pos h0, hw]
        simp [oget, hb]
      | some kv2 =>
        simp only [hb]
        rw [oget_cons]
        simp [oget, hb]
    · rw [if_neg h0] at h
      simp only [List.map_cons]
      rw [oget_cons]
      cases hb : b.find? (fun kv2 => kv2.1 = a0.1) with
      | none =>
        simp only [hb, if_neg h0]
        exact ih h
      | some kv2 =>
        simp only [hb, if_neg h0]
        exact ih h

theorem oget_omerge_map_none (a b : JsObj) (k : String) (h : oget a k = none) :
    oget (a.map (fun kv =>
      match b.find? (fun kv2 => kv2.1 = kv.1) with
      | some kv2 => (kv.1, kv2.2)
      | none => kv)) k = none := by
  induction a with
  | nil => simp [oget]
  | cons a0 t ih =>
    rw [oget_cons] at h
    by_cases h0 : a0.1 = k
    · rw [if_pos h0] at h
      exact absurd h (by simp)
    · rw [if_neg h0] at h
      simp only [List.map_cons]
      rw [oget_cons]
      cases hb : b.find? (fun kv2 => kv2.1 = a0.1) with
      | none =>
        simp only [hb, if_neg h0]
        exact ih h
      | some kv2 =>
        simp only [hb, if_neg h0]
        exact ih h

theorem oget_filter_keyFree (b a : JsObj) (k : String)
    (ha : a.any (fun kv => kv.1 = k) = false) :
    oget (b.filter (fun kv2 => ¬ a.any (fun kv => kv.1 = kv2.1))) k = oget b k := by
  induction b with
  | nil => rfl
  | cons b0 u ih =>
    by_cases hb0 : b0.1 = k
    · have hpred : (¬ a.any (fun kv => kv.1 = b0.1) : Bool) = true := by
        rw [hb0, ha]
        decide
      rw [List.filter_cons, if_pos (by simpa using hpred)]
      rw [oget_cons, oget_cons, if_pos hb0, if_pos hb0]
    · rw [List.filter_cons]
      by_cases hp : (¬ a.any (fun kv => kv.1 = b0.1) : Bool) = true
      · rw [if_pos (by simpa using hp)]
        rw [oget_cons, oget_cons, if_neg hb0, if_neg hb0]
        exact ih
      · rw [if_neg (by simpa using hp)]
        rw [oget_cons, if_neg hb0]
        exact ih

theorem oget_omerge (a b : JsObj) (k : String) :
    oget (omerge a b) k = (oget b k).or (oget a k) := by
  unfold omerge
  rw [oget_append]
  cases hak : oget a k with
  | some w =>
    rw [oget_omerge_map a b k w hak]
    cases hbk : oget b k <;> simp
  | none =>
    rw [oget_omerge_map_none a b k hak,
        oget_filter_keyFree b a k ((oget_none_iff_not_hasKey a k).mp hak)]
    cases hbk : oget b k <;> simp

theorem updatePayload_version (now : Nat) (p : JsObj) :
    oget (updatePayload now p) "version" =
      some (Val.n (getNextVersion (oget p "version"))) := by
  unfold updatePayload
  rw [oget_oset_ne _ _ _ _ (by decide), oget_oset_ne _ _ _ _ (by decide),
      oget_oset_ne _ _ _ _ (by decide), oget_oset_self]

theorem updatePayload_dateCreated (now : Nat) (p : JsObj) :
    oget (updatePayload now p) "dateCreated" =
      some (if isEmptyNumber (oget p "dateCreated") then Val.n now
            else (oget p "dateCreated").getD (Val.n now)) := by
  unfold updatePayload
  rw [oget_oset_ne _ _ _ _ (by decide), oget_oset_ne _ _ _ _ (by decide),
      oget_oset_self, oget_oset_ne _ _ _ _ (by decide)]

theorem updatePayload_dateUpdated (now : Nat) (p : JsObj) :
    oget (updatePayload now p) "dateUpdated" = some (Val.n now) := by
  unfold updatePayload
  rw [oget_oset_ne _ _ _ _ (by decide), oget_oset_self]

theorem updatePayload_deleted (now : Nat) (p : JsObj) :
    oget (updatePayload now p) "deleted" =
      some ((oget p "deleted").getD (Val.b false)) := by
  unfold updatePayload
  rw [oget_oset_self, oget_oset_ne _ _ _ _ (by decide),
      oget_oset_ne _ _ _ _ (by decide), oget_oset_ne _ _ _ _ (by decide)]

theorem updatePayload_other (now : Nat) (p : JsObj) (k : String)
    (h1 : ¬ k = "version") (h2 : ¬ k = "dateCreated")
    (h3 : ¬ k = "dateUpdated") (h4 : ¬ k = "deleted") :
    oget (updatePayload now p) k = oget p k := by
  unfold updatePayload
  rw [oget_oset_ne _ _ _ _ h4, oget_oset_ne _ _ _ _ h3,
      oget_oset_ne _ _ _ _ h2, oget_oset_ne _ _ _ _ h1]

theorem markAsDeleted_deleted (now : Nat) (p : JsObj) :
    oget (markAsDeleted now p) "deleted" = some (Val.b true) := by
  unfold markAsDeleted
  rw [oget_oset_ne _ _ _ _ (by decide), oget_oset_self]

theorem markAsDeleted_dateDeleted (now : Nat) (p : JsObj) :
    oget (markAsDeleted now p) "dateDeleted" = some (Val.n now) := by
  unfold markAsDeleted
  rw [oget_oset_self]

theorem markAsDeleted_other (now : Nat) (p : JsObj) (k : String)
    (h1 : ¬ k = "deleted") (h2 : ¬ k = "dateDeleted") :
    oget (markAsDeleted now p) k = oget p k := by
  unfold markAsDeleted
  rw [oget_oset_ne _ _ _ _ h2, oget_oset_ne _ _ _ _ h1]

theorem payloadIdOpt_updatePayload (now : Nat) (p : JsObj) :
    payloadIdOpt (updatePayload now p) = payloadIdOpt p := by
  unfold payloadIdOpt
  rw [updatePayload_other now p "id" (by decide) (by decide) (by decide) (by decide)]

/-! Pointwise lemmas about the local blob (same shape as the `oget` family,
at `JsObj`-valued entries). -/

theorem blobGet_cons (kv : String × JsObj) (t : LocalBlob) (k : String) :
    blobGet (kv :: t) k = if kv.1 = k then some kv.2 else blobGet t k := by
  by_cases h : kv.1 = k <;> simp [blobGet, List.find?_cons, h]

theorem blobGet_append (o1 o2 : LocalBlob) (k : String) :
    blobGet (o1 ++ o2) k = (blobGet o1 k).or (blobGet o2 k) := by
  induction o1 with
  | nil => simp [blobGet]
  | cons a t ih =>
    by_cases h : a.1 = k
    · simp [blobGet_cons, h, List.cons_append]
    · simpa [blobGet_cons, h, List.cons_append] using ih

theorem blobGet_none_iff_not_hasKey (o : LocalBlob) (k : String) :
    blobGet o k = none ↔ o.any (fun kv => kv.1 = k) = false := by
  induction o with
  | nil => simp [blobGet]
  | cons a t ih =>
    by_cases h : a.1 = k <;> simp [blobGet_cons, h, ih]

theorem blobGet_map_setKey_self (t : LocalBlob) (k : String) (v : JsObj)
    (ha : t.any (fun kv => kv.1 = k) = true) :
    blobGet (t.map (fun kv => if kv.1 = k then (k, v) else kv)) k = some v := by
  induction t with
  | nil => simp at ha
  | cons a u ih =>
    by_cases hak : a.1 = k
    · simp only [List.map_cons, if_pos hak]
      rw [blobGet_cons]
      simp
    · simp only [List.map_cons, if_neg hak]
      rw [blobGet_cons]
      simp only [hak, if_false]
      exact ih (by simpa [hak] using ha)

theorem blobGet_map_setKey_ne (t : LocalBlob) (k k' : String) (v : JsObj)
    (h : ¬ k' = k) :
    blobGet (t.map (fun kv => if kv.1 = k then (k, v) else kv)) k' = blobGet t k' := by
  induction t with
  | nil => simp [blobGet]
  | cons a u ih =>
    by_cases hak : a.1 = k
    · simp only [List.map_cons, if_pos hak]
      rw [blobGet_cons, blobGet_cons]
      have h1 : ¬ (k = k') := fun he => h he.symm
      have h2 : ¬ (a.1 = k') := by rw [hak]; exact h1
      simp only [h1, h2, if_false]
      exact ih
    · simp only [List.map_cons, if_neg hak]
      rw [blobGet_cons, blobGet_cons]
      by_cases hax : a.1 = k'
      · simp [hax]
      · simp only [hax, if_false]
        exact ih

theorem blobGet_blobSet_self (o : LocalBlob) (k : String) (v : JsObj) :
    blobGet (blobSet o k v) k = some v := by
  unfold blobSet
  by_cases ha : o.any (fun kv => kv.1 = k)
  · rw [if_pos ha]
    exact blobGet_map_setKey_self o k v ha
  · rw [if_neg ha, blobGet_append]
    rw [(blobGet_none_iff_not_hasKey o k).mpr (by rw [← Bool.not_eq_true]; exact ha)]
    simp [blobGet_cons]

theorem blobGet_blobSet_ne (o : LocalBlob) (k k' : String) (v : JsObj)
    (h : ¬ k' = k) :
    blobGet (blobSet o k v) k' = blobGet o k' := by
  unfold blobSet
  by_cases ha : o.any (fun kv => kv.1 = k)
  · rw [if_pos ha]
    exact blobGet_map_setKey_ne o k k' v h
  · rw [if_neg ha, blobGet_append, blobGet_cons]
    simp [show ¬ (k = k') from fun he => h he.symm, blobGet]

theorem blobGet_blobDelete_self (o : LocalBlob) (k : String) :
    blobGet (blobDelete o k) k = none := by
  unfold blobDelete
  induction o with
  | nil => rfl
  | cons a t ih =>
    rw [List.filter_cons]
    by_cases hak : a.1 = k
    · rw [if_neg (by simp [hak])]
      exact ih
    · rw [if_pos (by simpa using hak), blobGet_cons, if_neg hak]
      exact ih

theorem blobGet_blobDelete_ne (o : LocalBlob) (k k' : String) (h : ¬ k' = k) :
    blobGet (blobDelete o k) k' = blobGet o k' := by
  unfold blobDelete
  induction o with
  | nil => rfl
  | cons a t ih =>
    rw [List.filter_cons]
    by_cases hak : a.1 = k
    · rw [if_neg (by simp [hak])]
      rw [blobGet_cons, if_neg (show ¬ a.1 = k' by rw [hak]; exact fun he => h he.symm)]
      exact ih
    · rw [if_pos (by simpa using hak)]
      rw [blobGet_cons, blobGet_cons]
      by_cases hax : a.1 = k'
      · simp [hax]
      · rw [if_neg hax, if_neg hax]
        exact ih

theorem activeKey_ne_inactiveKey (a b : String) :
    ¬ (getActiveKey a = getInactiveKey b) := by
  intro h
  have hh := congrArg (fun s => (s.data.reverse.drop 1).head?) h
  simp only [getActiveKey, getInactiveKey, String.data_append,
    List.reverse_append] at hh
  simp at hh

/-! ## Claim theorems -/

/-- C4: for every stored record (on any of the three adapters), `update` with
`locking: "optimistic"` and a payload whose `version` differs from the stored
version fails with an optimistic-lock error and performs no write: the store
(including the stored record and its version) is returned unchanged. -/
theorem c4_optimistic_lock_rejects_without_write
    (now : Nat) (id : String) (payload : JsObj)
    (mstore : MongoStore) (mrec : JsObj)
    (hm : mongoFindById id mstore = some mrec)
    (hmv : ¬ (oget mrec "version" = oget payload "version"))
    (lblob : LocalBlob) (lrec : JsObj)
    (hl : blobGet lblob (getActiveKey id) = some lrec)
    (hlv : ¬ (oget lrec "version" = oget payload "version"))
    (fstore : FsStore) (frec : JsObj)
    (hf : fsFindById id fstore = some frec)
    (hfv : ¬ (oget frec "version" = oget payload "version")) :
    mongoUpdate now id payload true mstore = (.error .optimisticLock, mstore) ∧
    localUpdate now id payload true (some lblob) = (.error .optimisticLock, some lblob) ∧
    fsUpdate now id payload true fstore = (.error .optimisticLock, fstore) := by
  refine ⟨?_, ?_, ?_⟩
  · unfold mongoUpdate
    rw [hm]
    simp [hmv]
  · simp only [localUpdate]
    rw [hl]
    simp [hlv]
  · unfold fsUpdate
    rw [hf]
    simp [hfv]

/-- C4 witness: a concrete one-record store at version 1 and an update payload
at version 6 (`v + 5`) with optimistic locking, on all three adapters. -/
theorem c4_optimistic_lock_witness :
    mongoUpdate 10 "k1" [("version", Val.n 6)] true
        [[("id", Val.s "k1"), ("_id", Val.s "k1"), ("version", Val.n 1), ("deleted", Val.b false)]] =
      (.error .optimisticLock,
        [[("id", Val.s "k1"), ("_id", Val.s "k1"), ("version", Val.n 1), ("deleted", Val.b false)]]) ∧
    localUpdate 10 "k1" [("version", Val.n 6)] true
        (some [("k1:false", [("id", Val.s "k1"), ("version", Val.n 1), ("deleted", Val.b false)])]) =
      (.error .optimisticLock,
        some [("k1:false", [("id", Val.s "k1"), ("version", Val.n 1), ("deleted", Val.b false)])]) ∧
    fsUpdate 10 "k1" [("version", Val.n 6)] true
        [("k1", [("id", Val.s "k1"), ("version", Val.n 1), ("deleted", Val.b false)])] =
      (.error .optimisticLock,
        [("k1", [("id", Val.s "k1"), ("version", Val.n 1), ("deleted", Val.b false)])]) :=
  c4_optimistic_lock_rejects_without_write 10 "k1" [("version", Val.n 6)]
    [[("id", Val.s "k1"), ("_id", Val.s "k1"), ("version", Val.n 1), ("deleted", Val.b false)]]
    [("id", Val.s "k1"), ("_id", Val.s "k1"), ("version", Val.n 1), ("deleted", Val.b false)]
    (by decide) (by decide)
    [("k1:false", [("id", Val.s "k1"), ("version", Val.n 1), ("deleted", Val.b false)])]
    [("id", Val.s "k1"), ("version", Val.n 1), ("deleted", Val.b false)]
    (by decide) (by decide)
    [("k1", [("id", Val.s "k1"), ("version", Val.n 1), ("deleted", Val.b false)])]
    [("id", Val.s "k1"), ("version", Val.n 1), ("deleted", Val.b false)]
    (by decide) (by decide)

/-- C8 counterexample: the claim says a body error is rethrown unchanged, but
when `abortTransaction` itself fails the abort failure propagates instead of
the body's original error (the session is still terminated). -/
theorem c8_executeTransaction_counterexample :
    (executeTransaction (Except.error 1 : Except Nat Nat) none (some 2)).1 = .error 2 ∧
    ¬ ((executeTransaction (Except.error 1 : Except Nat Nat) none (some 2)).1 = .error 1) ∧
    (executeTransaction (Except.error 1 : Except Nat Nat) none (some 2)).2.ended = true := by
  refine ⟨rfl, ?_, rfl⟩
  intro h
  simp [executeTransaction] at h

/-- C8 (amended): `executeTransaction` commits and returns the body's result
when the body and the commit succeed; a body error is aborted and rethrown
unchanged whenever the abort succeeds, and when the abort itself fails the
abort failure propagates instead; a commit failure is aborted and rethrown;
and on every exit path the session is terminated. -/
theorem c8_executeTransaction_amended {E R : Type} (body : Except E R)
    (commitFail abortFail : Option E) :
    (∀ r, body = .ok r → commitFail = none →
        executeTransaction body commitFail abortFail = (.ok r, ⟨true, true, false, true⟩)) ∧
    (∀ e, body = .error e → abortFail = none →
        executeTransaction body commitFail abortFail =
          (.error e, ⟨true, false, true, true⟩)) ∧
    (∀ e ae, body = .error e → abortFail = some ae →
        (executeTransaction body commitFail abortFail).1 = .error ae) ∧
    (∀ r ce, body = .ok r → commitFail = some ce → abortFail = none →
        (executeTransaction body commitFail abortFail).1 = .error ce ∧
        (executeTransaction body commitFail abortFail).2.aborted = true) ∧
    (executeTransaction body commitFail abortFail).2.ended = true := by
  unfold executeTransaction
  cases body <;> cases commitFail <;> cases abortFail <;> simp

/-- C8 witness: concrete success and body-error (abort succeeding) runs. -/
theorem c8_executeTransaction_witness :
    executeTransaction (Except.ok 5 : Except Nat Nat) none none =
      (.ok 5, ⟨true, true, false, true⟩) ∧
    executeTransaction (Except.error 3 : Except Nat Nat) none none =
      (.error 3, ⟨true, false, true, true⟩) :=
  ⟨(c8_executeTransaction_amended (Except.ok 5) none none).1 5 rfl rfl,
   (c8_executeTransaction_amended (Except.error 3) none none).2.1 3 rfl rfl⟩

/-- C10: when `create` hits a duplicate id, the document-database and
cloud-document adapters have already stamped the caller's payload in place
(`updatePayload` ran before the duplicate check) even though the store is
untouched, while the local key-value adapter checks the id first and leaves
the payload unmodified. -/
theorem c10_create_stamps_before_duplicate_check
    (gen : String) (now : Nat) (k : String) (p : JsObj)
    (hid : payloadIdOpt p = some k)
    (hver : oget p "version" = none)
    (mstore : MongoStore) (hm : (mongoFindById k mstore).isSome)
    (fstore : FsStore) (hf : (fsFindById k fstore).isSome)
    (lstore : LocalStore) (hl : (localFindById k lstore).isSome) :
    mongoCreate gen now p mstore = (.error .duplicateRecord, mstore, updatePayload now p) ∧
    fsCreate gen now p fstore = (.error .duplicateRecord, fstore, updatePayload now p) ∧
    localCreate gen now p lstore = (.error .duplicateRecord, lstore, p) ∧
    ¬ (oget (updatePayload now p) "version" = oget p "version") := by
  have hid' : payloadIdOpt (updatePayload now p) = some k := by
    rw [payloadIdOpt_updatePayload]; exact hid
  refine ⟨?_, ?_, ?_, ?_⟩
  · simp only [mongoCreate]
    rw [hid']
    simp [hm]
  · simp only [fsCreate]
    rw [hid']
    simp [hf]
  · simp only [localCreate]
    rw [hid]
    simp [hl]
  · rw [updatePayload_version, hver]
    simp

/-- C10 witness: a fresh payload with id `"k1"` against stores already holding
a non-deleted record with that id, on all three adapters. -/
theorem c10_create_stamps_witness :
    mongoCreate "g" 9 [("id", Val.s "k1"), ("name", Val.s "x")]
        [[("id", Val.s "k1"), ("_id", Val.s "k1"), ("deleted", Val.b false)]] =
      (.error .duplicateRecord,
        [[("id", Val.s "k1"), ("_id", Val.s "k1"), ("deleted", Val.b false)]],
        updatePayload 9 [("id", Val.s "k1"), ("name", Val.s "x")]) ∧
    fsCreate "g" 9 [("id", Val.s "k1"), ("name", Val.s "x")]
        [("k1", [("id", Val.s "k1"), ("deleted", Val.b false)])] =
      (.error .duplicateRecord,
        [("k1", [("id", Val.s "k1"), ("deleted", Val.b false)])],
        updatePayload 9 [("id", Val.s "k1"), ("name", Val.s "x")]) ∧
    localCreate "g" 9 [("id", Val.s "k1"), ("name", Val.s "x")]
        (some [("k1:false", [("id", Val.s "k1"), ("deleted", Val.b false)])]) =
      (.error .duplicateRecord,
        some [("k1:false", [("id", Val.s "k1"), ("deleted", Val.b false)])],
        [("id", Val.s "k1"), ("name", Val.s "x")]) ∧
    ¬ (oget (updatePayload 9 [("id", Val.s "k1"), ("name", Val.s "x")]) "version" =
        oget [("id", Val.s "k1"), ("name", Val.s "x")] "version") :=
  c10_create_stamps_before_duplicate_check "g" 9 "k1"
    [("id", Val.s "k1"), ("name", Val.s "x")] (by decide) (by decide)
    _ (by decide) _ (by decide) _ (by decide)

/-- C6: creating a payload whose id `k` already belongs to a non-deleted
record rejects with duplicate-record and leaves the store unchanged (shown on
all three adapters), while a payload without an id is assigned the generated
id and skips the duplicate check entirely. -/
theorem c6_create_duplicate_id_guard
    (gen : String) (now : Nat) (k : String) (p q : JsObj)
    (hid : payloadIdOpt p = some k)
    (hq : payloadIdOpt q = none)
    (mstore : MongoStore)
    (hm : ∃ d ∈ mstore, oget d "id" = some (Val.s k) ∧
      ¬ (oget d "deleted" = some (Val.b true)))
    (lblob : LocalBlob)
    (hl : ∃ rec, blobGet lblob (getActiveKey k) = some rec)
    (fstore : FsStore)
    (hf : ∃ did d, (did, d) ∈ fstore ∧ oget d "id" = some (Val.s k) ∧
      fsNotDeleted d = true) :
    (mongoCreate gen now p mstore).1 = .error .duplicateRecord ∧
    (mongoCreate gen now p mstore).2.1 = mstore ∧
    (localCreate gen now p (some lblob)).1 = .error .duplicateRecord ∧
    (localCreate gen now p (some lblob)).2.1 = some lblob ∧
    (fsCreate gen now p fstore).1 = .error .duplicateRecord ∧
    (fsCreate gen now p fstore).2.1 = fstore ∧
    (∃ doc, mongoCreate gen now q mstore = (.ok doc, mstore ++ [doc], updatePayload now q) ∧
      oget doc "id" = some (Val.s gen)) ∧
    (∃ item store1, localCreate gen now q (some lblob) = (.ok item, store1, updatePayload now q) ∧
      oget item "id" = some (Val.s gen)) ∧
    (∃ doc store1, fsCreate gen now q fstore = (.ok doc, store1, doc) ∧
      oget doc "id" = some (Val.s gen)) := by
  have hid' : payloadIdOpt (updatePayload now p) = some k := by
    rw [payloadIdOpt_updatePayload]; exact hid
  have hq' : payloadIdOpt (updatePayload now q) = none := by
    rw [payloadIdOpt_updatePayload]; exact hq
  have hm' : (mongoFindById k mstore).isSome := by
    rw [mongoFindById, List.find?_isSome]
    obtain ⟨d, hd, h1, h2⟩ := hm
    exact ⟨d, hd, by simp [mongoByIdMatch, h1, h2]⟩
  have hl' : (localFindById k (some lblob)).isSome := by
    obtain ⟨rec, hrec⟩ := hl
    simp [localFindById, hrec]
  have hf' : (fsFindById k fstore).isSome := by
    obtain ⟨did, d, hd, h1, h2⟩ := hf
    have hfind :
        (List.find? (fun kd => fsFieldEq kd.2 ("id", Val.s k) && fsNotDeleted kd.2)
          fstore).isSome := by
      rw [List.find?_isSome]
      exact ⟨(did, d), hd, by simp [fsFieldEq, h1, h2]⟩
    rw [fsFindById]
    cases hx : List.find? (fun kd => fsFieldEq kd.2 ("id", Val.s k) && fsNotDeleted kd.2)
        fstore with
    | none => rw [hx] at hfind; simp at hfind
    | some x => simp [hx]
  refine ⟨?_, ?_, ?_, ?_, ?_, ?_, ?_, ?_, ?_⟩
  · simp only [mongoCreate]
    rw [hid']
    simp [hm']
  · simp only [mongoCreate]
    rw [hid']
    simp [hm']
  · simp only [localCreate]
    rw [hid]
    simp [hl']
  · simp only [localCreate]
    rw [hid]
    simp [hl']
  · simp only [fsCreate]
    rw [hid']
    simp [hf']
  · simp only [fsCreate]
    rw [hid']
    simp [hf']
  · refine ⟨oset (oset (updatePayload now q) "id" (Val.s gen)) "_id" (Val.s gen), ?_, ?_⟩
    · simp only [mongoCreate]
      rw [hq']
    · rw [oget_oset_ne _ _ _ _ (by decide), oget_oset_self]
  · refine ⟨oset (updatePayload now q) "id" (Val.s gen),
      some (blobSet lblob (getActiveKey gen) (oset (updatePayload now q) "id" (Val.s gen))),
      ?_, ?_⟩
    · simp only [localCreate]
      rw [hq]
      simp only [localCreateWrite, Option.getD_some]
    · rw [oget_oset_self]
  · refine ⟨oset (updatePayload now q) "id" (Val.s gen),
      fsSet fstore gen (oset (updatePayload now q) "id" (Val.s gen)), ?_, ?_⟩
    · simp only [fsCreate]
      rw [hq']
    · rw [oget_oset_self]

/-- C6 witness: stores holding a non-deleted record with id `"k1"`, a payload
carrying id `"k1"`, and an id-less payload assigned the generated id `"g7"`. -/
theorem c6_create_duplicate_id_witness :
    (mongoCreate "g7" 9 [("id", Val.s "k1")]
        [[("id", Val.s "k1"), ("_id", Val.s "k1"), ("deleted", Val.b false)]]).1 =
      .error .duplicateRecord ∧
    (mongoCreate "g7" 9 [("id", Val.s "k1")]
        [[("id", Val.s "k1"), ("_id", Val.s "k1"), ("deleted", Val.b false)]]).2.1 =
      [[("id", Val.s "k1"), ("_id", Val.s "k1"), ("deleted", Val.b false)]] ∧
    (localCreate "g7" 9 [("id", Val.s "k1")]
        (some [("k1:false", [("id", Val.s "k1"), ("deleted", Val.b false)])])).1 =
      .error .duplicateRecord ∧
    (localCreate "g7" 9 [("id", Val.s "k1")]
        (some [("k1:false", [("id", Val.s "k1"), ("deleted", Val.b false)])])).2.1 =
      some [("k1:false", [("id", Val.s "k1"), ("deleted", Val.b false)])] ∧
    (fsCreate "g7" 9 [("id", Val.s "k1")]
        [("k1", [("id", Val.s "k1"), ("deleted", Val.b false)])]).1 =
      .error .duplicateRecord ∧
    (fsCreate "g7" 9 [("id", Val.s "k1")]
        [("k1", [("id", Val.s "k1"), ("deleted", Val.b false)])]).2.1 =
      [("k1", [("id", Val.s "k1"), ("deleted", Val.b false)])] ∧
    (∃ doc, mongoCreate "g7" 9 [("name", Val.s "x")]
        [[("id", Val.s "k1"), ("_id", Val.s "k1"), ("deleted", Val.b false)]] =
        (.ok doc,
          [[("id", Val.s "k1"), ("_id", Val.s "k1"), ("deleted", Val.b false)]] ++ [doc],
          updatePayload 9 [("name", Val.s "x")]) ∧
      oget doc "id" = some (Val.s "g7")) ∧
    (∃ item store1, localCreate "g7" 9 [("name", Val.s "x")]
        (some [("k1:false", [("id", Val.s "k1"), ("deleted", Val.b false)])]) =
        (.ok item, store1, updatePayload 9 [("name", Val.s "x")]) ∧
      oget item "id" = some (Val.s "g7")) ∧
    (∃ doc store1, fsCreate "g7" 9 [("name", Val.s "x")]
        [("k1", [("id", Val.s "k1"), ("deleted", Val.b false)])] =
        (.ok doc, store1, doc) ∧
      oget doc "id" = some (Val.s "g7")) :=
  c6_create_duplicate_id_guard "g7" 9 "k1" [("id", Val.s "k1")] [("name", Val.s "x")]
    (by decide) (by decide)
    [[("id", Val.s "k1"), ("_id", Val.s "k1"), ("deleted", Val.b false)]] (by decide)
    [("k1:false", [("id", Val.s "k1"), ("deleted", Val.b false)])]
    ⟨[("id", Val.s "k1"), ("deleted", Val.b false)], by decide⟩
    [("k1", [("id", Val.s "k1"), ("deleted", Val.b false)])]
    ⟨"k1", [("id", Val.s "k1"), ("deleted", Val.b false)], by decide⟩

/-- C7: on the local key-value adapter, a default (soft) `remove(id)` makes
`findById(id)` empty and keeps the record out of the default `findAll()`
result, yet the blob still holds the record under the key `"<id>:true"`
(marked deleted and date-stamped); a hard `remove(id, softDelete: false)`
makes `findById(id)` empty and the record is no longer held by the blob. -/
theorem c7_local_remove_soft_keeps_hard_erases
    (now : Nat) (k : String) (o : LocalBlob) (rec : JsObj)
    (hrec : blobGet o (getActiveKey k) = some rec)
    (hid : oget rec "id" = some (Val.s k))
    (huniq : ∀ key r', (key, r') ∈ o → r' = rec → key = getActiveKey k) :
    (localRemove now k true (some o)).1 = .ok true ∧
    (∃ blob, (localRemove now k true (some o)).2 = some blob ∧
      localFindById k (some blob) = none ∧
      localFindAll [] (some blob) = [] ∧
      (∃ r', blobGet blob (getInactiveKey k) = some r' ∧
        oget r' "id" = some (Val.s k) ∧
        oget r' "deleted" = some (Val.b true) ∧
        oget r' "dateDeleted" = some (Val.n now))) ∧
    (localRemove now k false (some o)).1 = .ok true ∧
    (∃ blob, (localRemove now k false (some o)).2 = some blob ∧
      localFindById k (some blob) = none ∧
      (∀ key r', (key, r') ∈ blob → ¬ r' = rec)) := by
  have hrid : rawIdStr rec = k := by simp [rawIdStr, hid]
  have hidr' : oget (updatePayload now (markAsDeleted now rec)) "id" = some (Val.s k) := by
    rw [updatePayload_other _ _ _ (by decide) (by decide) (by decide) (by decide),
        markAsDeleted_other _ _ _ (by decide) (by decide)]
    exact hid
  have hrid' : rawIdStr (updatePayload now (markAsDeleted now rec)) = k := by
    simp [rawIdStr, hidr']
  have hsoft : localRemove now k true (some o) =
      (.ok true, some (blobSet (blobDelete o (getActiveKey k)) (getInactiveKey k)
        (updatePayload now (markAsDeleted now rec)))) := by
    simp only [localRemove]
    rw [hrec]
    simp only [localSoftDelete, hrid, hrid']
    simp
  have hhard : localRemove now k false (some o) =
      (.ok true, some (blobDelete o (getActiveKey k))) := by
    simp only [localRemove]
    rw [hrec]
    simp
  refine ⟨by rw [hsoft], ⟨_, by rw [hsoft], ?_, rfl, ?_⟩, by rw [hhard],
    ⟨_, by rw [hhard], ?_, ?_⟩⟩
  · show blobGet _ (getActiveKey k) = none
    rw [blobGet_blobSet_ne _ _ _ _ (activeKey_ne_inactiveKey k k),
        blobGet_blobDelete_self]
  · refine ⟨updatePayload now (markAsDeleted now rec), blobGet_blobSet_self _ _ _,
      hidr', ?_, ?_⟩
    · rw [updatePayload_deleted, markAsDeleted_deleted]
      rfl
    · rw [updatePayload_other _ _ _ (by decide) (by decide) (by decide) (by decide),
          markAsDeleted_dateDeleted]
  · show blobGet _ (getActiveKey k) = none
    exact blobGet_blobDelete_self o (getActiveKey k)
  · intro key r' hmem heq
    rw [blobDelete, List.mem_filter] at hmem
    have hkey := huniq key r' hmem.1 heq
    rw [hkey] at hmem
    simp at hmem

/-- C7 witness: a one-record blob for id `"k1"`, soft- and hard-removed. -/
theorem c7_local_remove_witness :
    (localRemove 9 "k1" true
        (some [("k1:false", [("id", Val.s "k1"), ("deleted", Val.b false)])])).1 = .ok true ∧
    (∃ blob, (localRemove 9 "k1" true
        (some [("k1:false", [("id", Val.s "k1"), ("deleted", Val.b false)])])).2 = some blob ∧
      localFindById "k1" (some blob) = none ∧
      localFindAll [] (some blob) = [] ∧
      (∃ r', blobGet blob (getInactiveKey "k1") = some r' ∧
        oget r' "id" = some (Val.s "k1") ∧
        oget r' "deleted" = some (Val.b true) ∧
        oget r' "dateDeleted" = some (Val.n 9))) ∧
    (localRemove 9 "k1" false
        (some [("k1:false", [("id", Val.s "k1"), ("deleted", Val.b false)])])).1 = .ok true ∧
    (∃ blob, (localRemove 9 "k1" false
        (some [("k1:false", [("id", Val.s "k1"), ("deleted", Val.b false)])])).2 = some blob ∧
      localFindById "k1" (some blob) = none ∧
      (∀ key r', (key, r') ∈ blob → ¬ r' = [("id", Val.s "k1"), ("deleted", Val.b false)])) :=
  c7_local_remove_soft_keeps_hard_erases 9 "k1"
    [("k1:false", [("id", Val.s "k1"), ("deleted", Val.b false)])]
    [("id", Val.s "k1"), ("deleted", Val.b false)]
    (by decide) (by decide)
    (by
      intro key r' hmem heq
      simp only [List.mem_singleton, Prod.mk.injEq] at hmem
      exact hmem.1.trans (by decide))

theorem hasBatchDuplicates_eq_true_of_dup (l : List JsObj)
    (h : ¬ ((entitiesWithIds l).map batchKey).Nodup) :
    hasBatchDuplicates l = true := by
  simp only [hasBatchDuplicates, decide_eq_true_eq]
  intro hlen
  exact h (List.dedup_eq_self.mp
    (List.Sublist.eq_of_length (List.dedup_sublist _)
      (by rw [List.length_map]; exact hlen)))

theorem hasBatchDuplicates_eq_false_of_no_ids (l : List JsObj)
    (h : ∀ e ∈ l, payloadIdOpt e = none) :
    hasBatchDuplicates l = false := by
  have he : entitiesWithIds l = [] := by
    rw [entitiesWithIds, List.filter_eq_nil_iff]
    intro e hel
    simp [h e hel]
  simp [hasBatchDuplicates, he]

theorem mongoResolveDocs_all_missing_id (gen : Nat → String) (now : Nat)
    (store : MongoStore) (l : List JsObj) (h : ∀ e ∈ l, payloadIdOpt e = none) :
    ∀ i, ∃ docs, mongoResolveDocs gen now store i l = .ok docs ∧
      docs.length = l.length := by
  induction l with
  | nil => exact fun i => ⟨[], rfl, rfl⟩
  | cons p rest ih =>
    intro i
    have hp : payloadIdOpt (updatePayload now p) = none := by
      rw [payloadIdOpt_updatePayload]
      exact h p (by simp)
    obtain ⟨docs, hd, hlen⟩ := ih (fun e he => h e (by simp [he])) (i + 1)
    refine ⟨oset (oset (updatePayload now p) "id" (Val.s (gen i))) "_id"
        (Val.s (gen i)) :: docs, ?_, ?_⟩
    · simp only [mongoResolveDocs]
      rw [hp, hd]
    · simp [hlen]

/-- C5: `createAll` on an empty list returns an empty list with the store
untouched (all three adapters); a batch in which two id-carrying entries share
an id rejects with invalid-request before any backend write, leaving the store
unchanged (all three adapters); and entries that omit an id are never counted
as duplicates of each other — a batch of id-less entries passes the guard and
is fully inserted (document-database adapter, whose `createAll` the spec
cites). -/
theorem c5_createAll_empty_and_batch_duplicates
    (mgen lgen fgen : Nat → String) (now : Nat) (payload : List JsObj)
    (mstore : MongoStore) (lstore : LocalStore) (fstore : FsStore) :
    mongoCreateAll mgen now [] mstore = (.ok [], mstore) ∧
    localCreateAll lgen now [] lstore = (.ok [], lstore) ∧
    fsCreateAll fgen now [] fstore = (.ok [], fstore) ∧
    (¬ ((entitiesWithIds payload).map batchKey).Nodup →
      mongoCreateAll mgen now payload mstore = (.error .invalidRequest, mstore) ∧
      localCreateAll lgen now payload lstore = (.error .invalidRequest, lstore) ∧
      fsCreateAll fgen now payload fstore = (.error .invalidRequest, fstore)) ∧
    ((∀ e ∈ payload, payloadIdOpt e = none) → ¬ (payload = []) →
      ∃ docs, mongoCreateAll mgen now payload mstore = (.ok docs, mstore ++ docs) ∧
        docs.length = payload.length) := by
  refine ⟨rfl, rfl, rfl, ?_, ?_⟩
  · intro hdup
    have hb := hasBatchDuplicates_eq_true_of_dup payload hdup
    have hlen0 : ¬ (payload.length = 0) := by
      intro h0
      apply hdup
      have hnil : payload = [] := List.length_eq_zero.mp h0
      subst hnil
      simp [entitiesWithIds]
    refine ⟨?_, ?_, ?_⟩
    · simp only [mongoCreateAll]
      rw [if_neg hlen0, if_pos hb]
    · simp only [localCreateAll]
      rw [if_neg hlen0, if_pos hb]
    · simp only [fsCreateAll]
      rw [if_neg hlen0, if_pos hb]
  · intro hnone hne
    have hb0 : hasBatchDuplicates payload = false :=
      hasBatchDuplicates_eq_false_of_no_ids payload hnone
    have hlen0 : ¬ (payload.length = 0) := by
      intro h0
      exact hne (List.length_eq_zero.mp h0)
    obtain ⟨docs, hd, hlen⟩ :=
      mongoResolveDocs_all_missing_id mgen now mstore payload hnone 0
    refine ⟨docs, ?_, hlen⟩
    simp only [mongoCreateAll]
    rw [if_neg hlen0, if_neg (by simp [hb0]), hd]

/-- C5 witness: the spec's `createAll([x, x])` batch with a shared id rejects
with invalid-request and zero writes on all three adapters. -/
theorem c5_createAll_witness :
    mongoCreateAll (fun _ => "g") 5 [[("id", Val.s "a")], [("id", Val.s "a")]] [] =
      (.error .invalidRequest, []) ∧
    localCreateAll (fun _ => "g") 5 [[("id", Val.s "a")], [("id", Val.s "a")]] none =
      (.error .invalidRequest, none) ∧
    fsCreateAll (fun _ => "g") 5 [[("id", Val.s "a")], [("id", Val.s "a")]] [] =
      (.error .invalidRequest, []) :=
  (c5_createAll_empty_and_batch_duplicates (fun _ => "g") (fun _ => "g") (fun _ => "g")
    5 [[("id", Val.s "a")], [("id", Val.s "a")]] [] none []).2.2.2.1 (by decide)

/-! Helper lemmas evaluating one mutation against a one-record store. -/

theorem mongoFindById_single (k : String) (rec : JsObj)
    (hid : oget rec "id" = some (Val.s k))
    (hdel : ¬ (oget rec "deleted" = some (Val.b true))) :
    mongoFindById k [rec] = some rec := by
  simp [mongoFindById, mongoByIdMatch, hid, hdel, List.find?]

theorem mongoUpdate_single (now : Nat) (k : String) (part rec : JsObj)
    (hid : oget rec "id" = some (Val.s k))
    (hdel : ¬ (oget rec "deleted" = some (Val.b true))) :
    mongoUpdate now k part false [rec] =
      (.ok true, [omerge rec (updatePayload now (omerge rec part))]) := by
  unfold mongoUpdate
  rw [mongoFindById_single k rec hid hdel]
  simp [mongoPerformUpdate]

theorem mongoSoftRemove_single (now : Nat) (k : String) (rec : JsObj)
    (hid : oget rec "id" = some (Val.s k))
    (hdel : ¬ (oget rec "deleted" = some (Val.b true))) :
    mongoRemove now k true [rec] =
      (.ok true, [omerge rec (markAsDeleted now (updatePayload now (omerge rec rec)))]) := by
  unfold mongoRemove
  rw [mongoFindById_single k rec hid hdel]
  simp [mongoPerformUpdate]

theorem localUpdate_single (now : Nat) (k : String) (part rec : JsObj)
    (hpid : oget part "id" = none)
    (hid : oget rec "id" = some (Val.s k)) :
    localUpdate now k part false (some [(getActiveKey k, rec)]) =
      (.ok true, some [(getActiveKey k, updatePayload now (omerge rec part))]) := by
  have hmid : oget (updatePayload now (omerge rec part)) "id" = some (Val.s k) := by
    rw [updatePayload_other _ _ _ (by decide) (by decide) (by decide) (by decide),
        oget_omerge, hpid]
    exact hid
  simp only [localUpdate]
  rw [show blobGet [(getActiveKey k, rec)] (getActiveKey k) = some rec by
    simp [blobGet, List.find?]]
  simp only [localPerformUpdate, rawIdStr, hmid]
  simp [blobSet]

theorem localSoftRemove_single (now : Nat) (k : String) (rec : JsObj)
    (hid : oget rec "id" = some (Val.s k)) :
    localRemove now k true (some [(getActiveKey k, rec)]) =
      (.ok true, some [(getInactiveKey k, updatePayload now (markAsDeleted now rec))]) := by
  have hidr' : oget (updatePayload now (markAsDeleted now rec)) "id" = some (Val.s k) := by
    rw [updatePayload_other _ _ _ (by decide) (by decide) (by decide) (by decide),
        markAsDeleted_other _ _ _ (by decide) (by decide)]
    exact hid
  simp only [localRemove]
  rw [show blobGet [(getActiveKey k, rec)] (getActiveKey k) = some rec by
    simp [blobGet, List.find?]]
  simp only [localSoftDelete, rawIdStr, hid, hidr']
  simp [blobDelete, blobSet]

theorem fsFindById_single (k : String) (rec : JsObj)
    (hid : oget rec "id" = some (Val.s k))
    (hdelF : fsNotDeleted rec = true) :
    fsFindById k [(k, rec)] = some rec := by
  simp [fsFindById, fsFieldEq, hid, hdelF, List.find?]

theorem fsUpdate_single (now : Nat) (k : String) (part rec : JsObj)
    (hid : oget rec "id" = some (Val.s k))
    (hdelF : fsNotDeleted rec = true) :
    fsUpdate now k part false [(k, rec)] =
      (.ok true, [(k, omerge rec (omerge (updatePayload now rec) part))]) := by
  unfold fsUpdate
  rw [fsFindById_single k rec hid hdelF]
  simp [fsPerformUpdate, rawIdStr, hid]

theorem fsSoftRemove_single (now : Nat) (k : String) (rec : JsObj)
    (hid : oget rec "id" = some (Val.s k))
    (hdelF : fsNotDeleted rec = true) :
    fsRemove now k true [(k, rec)] =
      (.ok true, [(k, omerge rec (updatePayload now (markAsDeleted now rec)))]) := by
  unfold fsRemove
  rw [fsFindById_single k rec hid hdelF]
  simp [fsSoftDelete, rawIdStr, hid]

/-- C1 counterexample: on the cloud-document adapter, a successful optimistic
update whose payload carries the matching version `1` stores version `1`
again, not `version_before + 1 = 2` — `performUpdate` stamps the record and
then spreads the caller's payload over it, so the carried `version` wins. -/
theorem c1_version_counterexample :
    (fsUpdate 10 "k1" [("version", Val.n 1)] true
      [("k1", [("id", Val.s "k1"), ("version", Val.n 1), ("dateCreated", Val.n 5),
        ("dateUpdated", Val.n 5), ("deleted", Val.b false)])]).1 = .ok true ∧
    ((fsUpdate 10 "k1" [("version", Val.n 1)] true
      [("k1", [("id", Val.s "k1"), ("version", Val.n 1), ("dateCreated", Val.n 5),
        ("dateUpdated", Val.n 5), ("deleted", Val.b false)])]).2.map
      (fun kd => oget kd.2 "version")) = [some (Val.n 1)] ∧
    oget [("id", Val.s "k1"), ("version", Val.n 1), ("dateCreated", Val.n 5),
      ("dateUpdated", Val.n 5), ("deleted", Val.b false)] "version" = some (Val.n 1) :=
  ⟨rfl, by decide, by decide⟩

/-- C1 (amended): a successful create of a payload with no prior version
stores version 1, and a successful soft-delete stores `version_before + 1`, on
all three adapters; a successful update whose payload does not carry a
`version` field stores `version_before + 1` on all three adapters; an update
whose payload carries version `pv` stores `pv + 1` on the document-database
and key-value adapters but stores `pv` unchanged on the cloud-document
adapter. -/
theorem c1_version_arithmetic_amended
    (gen : String) (now : Nat) (k : String) (v pv : Nat)
    (p rec part0 partv : JsObj)
    (hpId : payloadIdOpt p = none)
    (hpV : oget p "version" = none)
    (hrId : oget rec "id" = some (Val.s k))
    (hrDel : oget rec "deleted" = some (Val.b false))
    (hrV : oget rec "version" = some (Val.n v))
    (h0Id : oget part0 "id" = none)
    (h0V : oget part0 "version" = none)
    (hvId : oget partv "id" = none)
    (hvV : oget partv "version" = some (Val.n pv))
    (mstore : MongoStore) (lstore : LocalStore) (fstore : FsStore) :
    (∃ doc, (mongoCreate gen now p mstore).1 = .ok doc ∧
      oget doc "version" = some (Val.n 1)) ∧
    (∃ item, (localCreate gen now p lstore).1 = .ok item ∧
      oget item "version" = some (Val.n 1)) ∧
    (∃ doc, (fsCreate gen now p fstore).1 = .ok doc ∧
      oget doc "version" = some (Val.n 1)) ∧
    (∃ d, mongoRemove now k true [rec] = (.ok true, [d]) ∧
      oget d "version" = some (Val.n (v + 1))) ∧
    (∃ d, localRemove now k true (some [(getActiveKey k, rec)]) =
        (.ok true, some [(getInactiveKey k, d)]) ∧
      oget d "version" = some (Val.n (v + 1))) ∧
    (∃ d, fsRemove now k true [(k, rec)] = (.ok true, [(k, d)]) ∧
      oget d "version" = some (Val.n (v + 1))) ∧
    (∃ d, mongoUpdate now k part0 false [rec] = (.ok true, [d]) ∧
      oget d "version" = some (Val.n (v + 1))) ∧
    (∃ d, localUpdate now k part0 false (some [(getActiveKey k, rec)]) =
        (.ok true, some [(getActiveKey k, d)]) ∧
      oget d "version" = some (Val.n (v + 1))) ∧
    (∃ d, fsUpdate now k part0 false [(k, rec)] = (.ok true, [(k, d)]) ∧
      oget d "version" = some (Val.n (v + 1))) ∧
    (∃ d, mongoUpdate now k partv false [rec] = (.ok true, [d]) ∧
      oget d "version" = some (Val.n (pv + 1))) ∧
    (∃ d, localUpdate now k partv false (some [(getActiveKey k, rec)]) =
        (.ok true, some [(getActiveKey k, d)]) ∧
      oget d "version" = some (Val.n (pv + 1))) ∧
    (∃ d, fsUpdate now k partv false [(k, rec)] = (.ok true, [(k, d)]) ∧
      oget d "version" = some (Val.n pv)) := by
  have hpId' : payloadIdOpt (updatePayload now p) = none := by
    rw [payloadIdOpt_updatePayload]; exact hpId
  have hdel' : ¬ (oget rec "deleted" = some (Val.b true)) := by
    rw [hrDel]; simp
  have hdelF : fsNotDeleted rec = true := by
    simp [fsNotDeleted, hrDel]
  have hupv : oget (updatePayload now p) "version" = some (Val.n 1) := by
    rw [updatePayload_version, hpV]
    rfl
  have hm0 : oget (omerge rec part0) "version" = some (Val.n v) := by
    rw [oget_omerge, h0V, hrV]
    rfl
  have hmv : oget (omerge rec partv) "version" = some (Val.n pv) := by
    rw [oget_omerge, hvV]
    rfl
  have hmm : oget (omerge rec rec) "version" = some (Val.n v) := by
    rw [oget_omerge, hrV]
    rfl
  refine ⟨?_, ?_, ?_, ?_, ?_, ?_, ?_, ?_, ?_, ?_, ?_, ?_⟩
  · refine ⟨oset (oset (updatePayload now p) "id" (Val.s gen)) "_id" (Val.s gen), ?_, ?_⟩
    · simp only [mongoCreate]
      rw [hpId']
    · rw [oget_oset_ne _ _ _ _ (by decide), oget_oset_ne _ _ _ _ (by decide), hupv]
  · refine ⟨oset (updatePayload now p) "id" (Val.s gen), ?_, ?_⟩
    · simp only [localCreate]
      rw [hpId]
      simp only [localCreateWrite]
    · rw [oget_oset_ne _ _ _ _ (by decide), hupv]
  · refine ⟨oset (updatePayload now p) "id" (Val.s gen), ?_, ?_⟩
    · simp only [fsCreate]
      rw [hpId']
    · rw [oget_oset_ne _ _ _ _ (by decide), hupv]
  · refine ⟨_, mongoSoftRemove_single now k rec hrId hdel', ?_⟩
    rw [oget_omerge,
        markAsDeleted_other _ _ _ (by decide) (by decide),
        updatePayload_version, hmm]
    rfl
  · refine ⟨_, localSoftRemove_single now k rec hrId, ?_⟩
    rw [updatePayload_version, markAsDeleted_other _ _ _ (by decide) (by decide), hrV]
    rfl
  · refine ⟨_, fsSoftRemove_single now k rec hrId hdelF, ?_⟩
    rw [oget_omerge, updatePayload_version,
        markAsDeleted_other _ _ _ (by decide) (by decide), hrV]
    rfl
  · refine ⟨_, mongoUpdate_single now k part0 rec hrId hdel', ?_⟩
    rw [oget_omerge, updatePayload_version, hm0]
    rfl
  · refine ⟨_, localUpdate_single now k part0 rec h0Id hrId, ?_⟩
    rw [updatePayload_version, hm0]
    rfl
  · refine ⟨_, fsUpdate_single now k part0 rec hrId hdelF, ?_⟩
    rw [oget_omerge, oget_omerge, h0V, updatePayload_version, hrV]
    rfl
  · refine ⟨_, mongoUpdate_single now k partv rec hrId hdel', ?_⟩
    rw [oget_omerge, updatePayload_version, hmv]
    rfl
  · refine ⟨_, localUpdate_single now k partv rec hvId hrId, ?_⟩
    rw [updatePayload_version, hmv]
    rfl
  · refine ⟨_, fsUpdate_single now k partv rec hrId hdelF, ?_⟩
    rw [oget_omerge, oget_omerge, hvV]
    rfl

/-- C1 witness: concrete payloads and a one-record store at version 3. -/
theorem c1_version_arithmetic_witness :
    (∃ doc, (mongoCreate "g" 10 [("name", Val.s "x")] []).1 = .ok doc ∧
      oget doc "version" = some (Val.n 1)) ∧
    (∃ item, (localCreate "g" 10 [("name", Val.s "x")] none).1 = .ok item ∧
      oget item "version" = some (Val.n 1)) ∧
    (∃ doc, (fsCreate "g" 10 [("name", Val.s "x")] []).1 = .ok doc ∧
      oget doc "version" = some (Val.n 1)) ∧
    (∃ d, mongoRemove 10 "k1" true
        [[("id", Val.s "k1"), ("deleted", Val.b false), ("version", Val.n 3)]] =
        (.ok true, [d]) ∧ oget d "version" = some (Val.n 4)) ∧
    (∃ d, localRemove 10 "k1" true
        (some [(getActiveKey "k1",
          [("id", Val.s "k1"), ("deleted", Val.b false), ("version", Val.n 3)])]) =
        (.ok true, some [(getInactiveKey "k1", d)]) ∧
      oget d "version" = some (Val.n 4)) ∧
    (∃ d, fsRemove 10 "k1" true
        [("k1", [("id", Val.s "k1"), ("deleted", Val.b false), ("version", Val.n 3)])] =
        (.ok true, [("k1", d)]) ∧ oget d "version" = some (Val.n 4)) ∧
    (∃ d, mongoUpdate 10 "k1" [("name", Val.s "y")] false
        [[("id", Val.s "k1"), ("deleted", Val.b false), ("version", Val.n 3)]] =
        (.ok true, [d]) ∧ oget d "version" = some (Val.n 4)) ∧
    (∃ d, localUpdate 10 "k1" [("name", Val.s "y")] false
        (some [(getActiveKey "k1",
          [("id", Val.s "k1"), ("deleted", Val.b false), ("version", Val.n 3)])]) =
        (.ok true, some [(getActiveKey "k1", d)]) ∧
      oget d "version" = some (Val.n 4)) ∧
    (∃ d, fsUpdate 10 "k1" [("name", Val.s "y")] false
        [("k1", [("id", Val.s "k1"), ("deleted", Val.b false), ("version", Val.n 3)])] =
        (.ok true, [("k1", d)]) ∧ oget d "version" = some (Val.n 4)) ∧
    (∃ d, mongoUpdate 10 "k1" [("version", Val.n 7)] false
        [[("id", Val.s "k1"), ("deleted", Val.b false), ("version", Val.n 3)]] =
        (.ok true, [d]) ∧ oget d "version" = some (Val.n 8)) ∧
    (∃ d, localUpdate 10 "k1" [("version", Val.n 7)] false
        (some [(getActiveKey "k1",
          [("id", Val.s "k1"), ("deleted", Val.b false), ("version", Val.n 3)])]) =
        (.ok true, some [(getActiveKey "k1", d)]) ∧
      oget d "version" = some (Val.n 8)) ∧
    (∃ d, fsUpdate 10 "k1" [("version", Val.n 7)] false
        [("k1", [("id", Val.s "k1"), ("deleted", Val.b false), ("version", Val.n 3)])] =
        (.ok true, [("k1", d)]) ∧ oget d "version" = some (Val.n 7)) :=
  c1_version_arithmetic_amended "g" 10 "k1" 3 7
    [("name", Val.s "x")]
    [("id", Val.s "k1"), ("deleted", Val.b false), ("version", Val.n 3)]
    [("name", Val.s "y")] [("version", Val.n 7)]
    (by decide) (by decide) (by decide) (by decide) (by decide)
    (by decide) (by decide) (by decide) (by decide)
    [] none []

/-- C9 counterexample: an update whose partial carries a `dateCreated` value
overrides the stored one — the merge `\x7b...record, ...payload\x7d` lets the
caller's field win, so `dateCreated` changes from 5 to 999 on a successful
update of the document-database adapter. -/
theorem c9_dateCreated_counterexample :
    (mongoUpdate 10 "k1" [("dateCreated", Val.n 999)] false
      [[("id", Val.s "k1"), ("_id", Val.s "k1"), ("deleted", Val.b false),
        ("version", Val.n 1), ("dateCreated", Val.n 5)]]).1 = .ok true ∧
    ((mongoUpdate 10 "k1" [("dateCreated", Val.n 999)] false
      [[("id", Val.s "k1"), ("_id", Val.s "k1"), ("deleted", Val.b false),
        ("version", Val.n 1), ("dateCreated", Val.n 5)]]).2.map
      (fun d => oget d "dateCreated")) = [some (Val.n 999)] ∧
    oget [("id", Val.s "k1"), ("_id", Val.s "k1"), ("deleted", Val.b false),
      ("version", Val.n 1), ("dateCreated", Val.n 5)] "dateCreated" = some (Val.n 5) :=
  ⟨rfl, by decide, by decide⟩

/-- C9 (amended): every successful create of a fresh payload (no timestamps)
stores `dateCreated == dateUpdated` on all three adapters; and once set, the
stored `dateCreated` is unchanged by every soft remove and by every update
whose partial does not itself carry a `dateCreated` field (a partial that does
carry one overrides it, as the counterexample shows). -/
theorem c9_dateCreated_stability_amended
    (gen : String) (now : Nat) (k : String) (t : Nat)
    (p rec part : JsObj)
    (hpId : payloadIdOpt p = none)
    (hpDC : isEmptyNumber (oget p "dateCreated") = true)
    (hrId : oget rec "id" = some (Val.s k))
    (hrDel : oget rec "deleted" = some (Val.b false))
    (hrDC : oget rec "dateCreated" = some (Val.n t))
    (ht : ¬ t = 0)
    (hqId : oget part "id" = none)
    (hqDC : oget part "dateCreated" = none)
    (mstore : MongoStore) (lstore : LocalStore) (fstore : FsStore) :
    (∃ doc, (mongoCreate gen now p mstore).1 = .ok doc ∧
      oget doc "dateCreated" = some (Val.n now) ∧
      oget doc "dateUpdated" = some (Val.n now)) ∧
    (∃ item, (localCreate gen now p lstore).1 = .ok item ∧
      oget item "dateCreated" = some (Val.n now) ∧
      oget item "dateUpdated" = some (Val.n now)) ∧
    (∃ doc, (fsCreate gen now p fstore).1 = .ok doc ∧
      oget doc "dateCreated" = some (Val.n now) ∧
      oget doc "dateUpdated" = some (Val.n now)) ∧
    (∃ d, mongoUpdate now k part false [rec] = (.ok true, [d]) ∧
      oget d "dateCreated" = some (Val.n t)) ∧
    (∃ d, localUpdate now k part false (some [(getActiveKey k, rec)]) =
        (.ok true, some [(getActiveKey k, d)]) ∧
      oget d "dateCreated" = some (Val.n t)) ∧
    (∃ d, fsUpdate now k part false [(k, rec)] = (.ok true, [(k, d)]) ∧
      oget d "dateCreated" = some (Val.n t)) ∧
    (∃ d, mongoRemove now k true [rec] = (.ok true, [d]) ∧
      oget d "dateCreated" = some (Val.n t)) ∧
    (∃ d, localRemove now k true (some [(getActiveKey k, rec)]) =
        (.ok true, some [(getInactiveKey k, d)]) ∧
      oget d "dateCreated" = some (Val.n t)) ∧
    (∃ d, fsRemove now k true [(k, rec)] = (.ok true, [(k, d)]) ∧
      oget d "dateCreated" = some (Val.n t)) := by
  have hpId' : payloadIdOpt (updatePayload now p) = none := by
    rw [payloadIdOpt_updatePayload]; exact hpId
  have hdel' : ¬ (oget rec "deleted" = some (Val.b true)) := by
    rw [hrDel]; simp
  have hdelF : fsNotDeleted rec = true := by
    simp [fsNotDeleted, hrDel]
  have htne : isEmptyNumber (some (Val.n t)) = false := by
    cases t with
    | zero => exact absurd rfl ht
    | succ m => rfl
  have hcreateDC : oget (updatePayload now p) "dateCreated" = some (Val.n now) := by
    rw [updatePayload_dateCreated, hpDC]
    rfl
  have hcreateDU : oget (updatePayload now p) "dateUpdated" = some (Val.n now) :=
    updatePayload_dateUpdated now p
  have hm0 : oget (omerge rec part) "dateCreated" = some (Val.n t) := by
    rw [oget_omerge, hqDC, hrDC]
    rfl
  have hup0 : oget (updatePayload now (omerge rec part)) "dateCreated" = some (Val.n t) := by
    rw [updatePayload_dateCreated, hm0, htne]
    rfl
  have hmm : oget (omerge rec rec) "dateCreated" = some (Val.n t) := by
    rw [oget_omerge, hrDC]
    rfl
  have hmd : oget (markAsDeleted now rec) "dateCreated" = some (Val.n t) := by
    rw [markAsDeleted_other _ _ _ (by decide) (by decide)]
    exact hrDC
  refine ⟨?_, ?_, ?_, ?_, ?_, ?_, ?_, ?_, ?_⟩
  · refine ⟨oset (oset (updatePayload now p) "id" (Val.s gen)) "_id" (Val.s gen), ?_, ?_, ?_⟩
    · simp only [mongoCreate]
      rw [hpId']
    · rw [oget_oset_ne _ _ _ _ (by decide), oget_oset_ne _ _ _ _ (by decide), hcreateDC]
    · rw [oget_oset_ne _ _ _ _ (by decide), oget_oset_ne _ _ _ _ (by decide), hcreateDU]
  · refine ⟨oset (updatePayload now p) "id" (Val.s gen), ?_, ?_, ?_⟩
    · simp only [localCreate]
      rw [hpId]
      simp only [localCreateWrite]
    · rw [oget_oset_ne _ _ _ _ (by decide), hcreateDC]
    · rw [oget_oset_ne _ _ _ _ (by decide), hcreateDU]
  · refine ⟨oset (updatePayload now p) "id" (Val.s gen), ?_, ?_, ?_⟩
    · simp only [fsCreate]
      rw [hpId']
    · rw [oget_oset_ne _ _ _ _ (by decide), hcreateDC]
    · rw [oget_oset_ne _ _ _ _ (by decide), hcreateDU]
  · refine ⟨_, mongoUpdate_single now k part rec hrId hdel', ?_⟩
    rw [oget_omerge, hup0]
    rfl
  · refine ⟨_, localUpdate_single now k part rec hqId hrId, ?_⟩
    exact hup0
  · refine ⟨_, fsUpdate_single now k part rec hrId hdelF, ?_⟩
    rw [oget_omerge, oget_omerge, hqDC, updatePayload_dateCreated, hrDC, htne]
    rfl
  · refine ⟨_, mongoSoftRemove_single now k rec hrId hdel', ?_⟩
    rw [oget_omerge, markAsDeleted_other _ _ _ (by decide) (by decide),
        updatePayload_dateCreated, hmm, htne]
    rfl
  · refine ⟨_, localSoftRemove_single now k rec hrId, ?_⟩
    rw [updatePayload_dateCreated, hmd, htne]
    rfl
  · refine ⟨_, fsSoftRemove_single now k rec hrId hdelF, ?_⟩
    rw [oget_omerge, updatePayload_dateCreated, hmd, htne]
    rfl

/-- C9 witness: a fresh payload created at tick 10 and a stored record with
`dateCreated = 5` updated and soft-removed at tick 10. -/
theorem c9_dateCreated_stability_witness :
    (∃ doc, (mongoCreate "g" 10 [("name", Val.s "x")] []).1 = .ok doc ∧
      oget doc "dateCreated" = some (Val.n 10) ∧
      oget doc "dateUpdated" = some (Val.n 10)) ∧
    (∃ item, (localCreate "g" 10 [("name", Val.s "x")] none).1 = .ok item ∧
      oget item "dateCreated" = some (Val.n 10) ∧
      oget item "dateUpdated" = some (Val.n 10)) ∧
    (∃ doc, (fsCreate "g" 10 [("name", Val.s "x")] []).1 = .ok doc ∧
      oget doc "dateCreated" = some (Val.n 10) ∧
      oget doc "dateUpdated" = some (Val.n 10)) ∧
    (∃ d, mongoUpdate 10 "k1" [("name", Val.s "y")] false
        [[("id", Val.s "k1"), ("deleted", Val.b false), ("dateCreated", Val.n 5)]] =
        (.ok true, [d]) ∧ oget d "dateCreated" = some (Val.n 5)) ∧
    (∃ d, localUpdate 10 "k1" [("name", Val.s "y")] false
        (some [(getActiveKey "k1",
          [("id", Val.s "k1"), ("deleted", Val.b false), ("dateCreated", Val.n 5)])]) =
        (.ok true, some [(getActiveKey "k1", d)]) ∧
      oget d "dateCreated" = some (Val.n 5)) ∧
    (∃ d, fsUpdate 10 "k1" [("name", Val.s "y")] false
        [("k1", [("id", Val.s "k1"), ("deleted", Val.b false), ("dateCreated", Val.n 5)])] =
        (.ok true, [("k1", d)]) ∧ oget d "dateCreated" = some (Val.n 5)) ∧
    (∃ d, mongoRemove 10 "k1" true
        [[("id", Val.s "k1"), ("deleted", Val.b false), ("dateCreated", Val.n 5)]] =
        (.ok true, [d]) ∧ oget d "dateCreated" = some (Val.n 5)) ∧
    (∃ d, localRemove 10 "k1" true
        (some [(getActiveKey "k1",
          [("id", Val.s "k1"), ("deleted", Val.b false), ("dateCreated", Val.n 5)])]) =
        (.ok true, some [(getInactiveKey "k1", d)]) ∧
      oget d "dateCreated" = some (Val.n 5)) ∧
    (∃ d, fsRemove 10 "k1" true
        [("k1", [("id", Val.s "k1"), ("deleted", Val.b false), ("dateCreated", Val.n 5)])] =
        (.ok true, [("k1", d)]) ∧ oget d "dateCreated" = some (Val.n 5)) :=
  c9_dateCreated_stability_amended "g" 10 "k1" 5
    [("name", Val.s "x")]
    [("id", Val.s "k1"), ("deleted", Val.b false), ("dateCreated", Val.n 5)]
    [("name", Val.s "y")]
    (by decide) (by decide) (by decide) (by decide) (by decide) (by decide)
    (by decide) (by decide)
    [] none []

/-- Scenario store for the document-database adapter: three creates with
`dateCreated` T+0 = 100, T+1 = 101, T-1 = 99 (names A, B, C). -/
def c2ScenarioMongo : MongoStore :=
  (mongoCreate "idc" 102 [("name", Val.s "C"), ("dateCreated", Val.n 99)]
    ((mongoCreate "idb" 101 [("name", Val.s "B"), ("dateCreated", Val.n 101)]
      ((mongoCreate "ida" 100 [("name", Val.s "A"), ("dateCreated", Val.n 100)]
        []).2.1)).2.1)).2.1

/-- Scenario store for the cloud-document adapter (same three creates). -/
def c2ScenarioFs : FsStore :=
  (fsCreate "idc" 102 [("name", Val.s "C"), ("dateCreated", Val.n 99)]
    ((fsCreate "idb" 101 [("name", Val.s "B"), ("dateCreated", Val.n 101)]
      ((fsCreate "ida" 100 [("name", Val.s "A"), ("dateCreated", Val.n 100)]
        []).2.1)).2.1)).2.1

/-- Scenario store for the local key-value adapter (same three creates). -/
def c2ScenarioLocal : LocalStore :=
  (localCreate "idc" 102 [("name", Val.s "C"), ("dateCreated", Val.n 99)]
    ((localCreate "idb" 101 [("name", Val.s "B"), ("dateCreated", Val.n 101)]
      ((localCreate "ida" 100 [("name", Val.s "A"), ("dateCreated", Val.n 100)]
        none).2.1)).2.1)).2.1

/-- C2: after creating records A (dateCreated T), B (T+1), C (T-1), the
document-database and cloud-document adapters' no-filter `findAll` return
them ordered `[B, A, C]` as the claim states, but the local key-value
adapter's `findAll()` (default filter `\x7b\x7d`) returns `[]` even though its blob
holds all three records non-deleted: its field loop iterates over the empty
filter's keys and never reads the store. -/
theorem c2_findAll_no_filter_scenario :
    (mongoFindAllNoFilter none c2ScenarioMongo).map (fun d => oget d "name") =
      [some (Val.s "B"), some (Val.s "A"), some (Val.s "C")] ∧
    (fsFindAllNoFilter none c2ScenarioFs).map (fun d => oget d "name") =
      [some (Val.s "B"), some (Val.s "A"), some (Val.s "C")] ∧
    localFindAll [] c2ScenarioLocal = [] ∧
    (c2ScenarioLocal.getD []).map (fun kv => oget kv.2 "name") =
      [some (Val.s "A"), some (Val.s "B"), some (Val.s "C")] ∧
    (c2ScenarioLocal.getD []).map (fun kv => oget kv.2 "deleted") =
      [some (Val.b false), some (Val.b false), some (Val.b false)] := by
  refine ⟨by decide, by decide, rfl, by decide, by decide⟩

/-- Predicate taken from the claim's words, for comparison with the compiled
queries: the record is not soft-deleted AND its value at some filter field
equals that field's filter value. -/
def claimOrMatch (filter : List (String × Val)) (d : JsObj) : Prop :=
  ¬ (oget d "deleted" = some (Val.b true)) ∧ ∃ kv ∈ filter, oget d kv.1 = some kv.2

instance (filter : List (String × Val)) (d : JsObj) : Decidable (claimOrMatch filter d) := by
  unfold claimOrMatch
  infer_instance

/-- C3 counterexample: on the local key-value adapter a two-field OR filter
returns a record matching both fields TWICE (once per matching filter field),
not once as the claimed union semantics requires. -/
theorem c3_or_union_counterexample :
    localFindAll [("email", Val.s "e1"), ("name", Val.s "n1")]
      (some [("r1:false", [("id", Val.s "r1"), ("email", Val.s "e1"),
        ("name", Val.s "n1"), ("deleted", Val.b false)])]) =
      [[("id", Val.s "r1"), ("email", Val.s "e1"), ("name", Val.s "n1"),
        ("deleted", Val.b false)],
       [("id", Val.s "r1"), ("email", Val.s "e1"), ("name", Val.s "n1"),
        ("deleted", Val.b false)]] ∧
    ¬ (localFindAll [("email", Val.s "e1"), ("name", Val.s "n1")]
      (some [("r1:false", [("id", Val.s "r1"), ("email", Val.s "e1"),
        ("name", Val.s "n1"), ("deleted", Val.b false)])])).Nodup := by
  refine ⟨rfl, by decide⟩

/-- C3 (amended): on the document-database and cloud-document adapters,
`findAll` with logical operator OR returns exactly the set of non-deleted
records whose value at some filter field equals that field's value — each
matching record once — ordered by `dateCreated` descending (on the cloud
adapter this holds for records that carry the `deleted` field, which its `!=`
operator requires); the local key-value adapter instead evaluates the filter
field-by-field in-process, returning each non-deleted matching record once per
filter field it matches (so a record matching several fields is duplicated),
though as a SET its result still agrees with the union semantics. -/
theorem c3_or_filter_amended
    (filter : List (String × Val)) (d r : JsObj)
    (mstore : MongoStore) (fstore : FsStore) (o : LocalBlob) :
    (evalMongoFilter (mongoCreateFilter filter (some .or)) d = true ↔
      claimOrMatch filter d) ∧
    ((oget d "deleted").isSome →
      (evalFsQuery (fsCreateQuery filter (some .or)) d = true ↔
        claimOrMatch filter d)) ∧
    (mongoFindBy filter (some .or) mstore).Perm
      (mstore.filter (fun x => decide (claimOrMatch filter x))) ∧
    List.Sorted dcDescLe (mongoFindBy filter (some .or) mstore) ∧
    ((∀ kd ∈ fstore, (oget kd.2 "deleted").isSome) →
      (fsFindAllFiltered filter (some .or) fstore).Perm
        ((fstore.map (fun kd => kd.2)).filter (fun x => decide (claimOrMatch filter x)))) ∧
    List.Sorted dcDescLe (fsFindAllFiltered filter (some .or) fstore) ∧
    (r ∈ localFindAll filter (some o) ↔
      ((∃ key, (key, r) ∈ o) ∧ ¬ itemDeletedTruthy r ∧
        ∃ kv ∈ filter, oget r kv.1 = some kv.2)) := by
  have hmongoPt : ∀ x, evalMongoFilter (mongoCreateFilter filter (some .or)) x =
      decide (claimOrMatch filter x) := by
    intro x
    rw [Bool.eq_iff_iff]
    simp [evalMongoFilter, mongoCreateFilter, claimOrMatch, notDeletedM, fieldEqM,
      List.any_eq_true]
  have hfsPt : ∀ x, (oget x "deleted").isSome →
      (evalFsQuery (fsCreateQuery filter (some .or)) x = decide (claimOrMatch filter x)) := by
    intro x hx
    rw [Bool.eq_iff_iff]
    cases hdx : oget x "deleted" with
    | none => rw [hdx] at hx; simp at hx
    | some w =>
      simp [evalFsQuery, fsCreateQuery, claimOrMatch, fsNotDeleted, fsFieldEq,
        List.any_eq_true, hdx]
  refine ⟨?_, ?_, ?_, ?_, ?_, ?_, ?_⟩
  · rw [← decide_eq_true_eq (p := claimOrMatch filter d), hmongoPt d]
  · intro hd
    rw [← decide_eq_true_eq (p := claimOrMatch filter d), hfsPt d hd]
  · unfold mongoFindBy
    rw [List.filter_congr (fun x _ => hmongoPt x)]
    exact List.perm_insertionSort dcDescLe _
  · exact List.sorted_insertionSort dcDescLe _
  · intro hall
    unfold fsFindAllFiltered fsFindByDocs fsOrdered
    refine ((List.perm_insertionSort dcDescLe _).trans
      ((List.perm_insertionSort delDcDescLe _).trans ?_))
    rw [List.filter_map]
    rw [show (fstore.filter
        ((fun kd => evalFsQuery (fsCreateQuery filter (some .or)) kd.2))) =
      (fstore.filter (fun kd => decide (claimOrMatch filter kd.2))) from
      List.filter_congr (fun kd hkd => hfsPt kd.2 (hall kd hkd))]
    exact List.Perm.refl _
  · exact List.sorted_insertionSort dcDescLe _
  · constructor
    · intro hr
      rw [localFindAll] at hr
      simp only [List.mem_flatMap, List.mem_map, List.mem_filter] at hr
      obtain ⟨kv, hkv, rkv, ⟨hrkvo, hcond⟩, hreq⟩ := hr
      rw [decide_eq_true_eq] at hcond
      subst hreq
      exact ⟨⟨rkv.1, hrkvo⟩, hcond.1, kv, hkv, hcond.2⟩
    · rintro ⟨⟨key, hkey⟩, hdel, kv, hkv, hval⟩
      rw [localFindAll]
      simp only [List.mem_flatMap, List.mem_map, List.mem_filter]
      exact ⟨kv, hkv, (key, r), ⟨hkey, by simp [hdel, hval]⟩, rfl⟩

/-- C3 witness: the amended statement instantiated at a concrete two-field OR
filter, one matching record, and one-record stores on each adapter. -/
theorem c3_or_filter_witness :
    (evalMongoFilter (mongoCreateFilter [("email", Val.s "e1"), ("name", Val.s "n1")]
        (some .or)) [("email", Val.s "e1"), ("deleted", Val.b false)] = true ↔
      claimOrMatch [("email", Val.s "e1"), ("name", Val.s "n1")]
        [("email", Val.s "e1"), ("deleted", Val.b false)]) ∧
    (evalFsQuery (fsCreateQuery [("email", Val.s "e1"), ("name", Val.s "n1")]
        (some .or)) [("email", Val.s "e1"), ("deleted", Val.b false)] = true ↔
      claimOrMatch [("email", Val.s "e1"), ("name", Val.s "n1")]
        [("email", Val.s "e1"), ("deleted", Val.b false)]) ∧
    (mongoFindBy [("email", Val.s "e1"), ("name", Val.s "n1")] (some .or)
        [[("email", Val.s "e1"), ("deleted", Val.b false)]]).Perm
      ([[("email", Val.s "e1"), ("deleted", Val.b false)]].filter
        (fun x => decide (claimOrMatch [("email", Val.s "e1"), ("name", Val.s "n1")] x))) ∧
    List.Sorted dcDescLe (mongoFindBy [("email", Val.s "e1"), ("name", Val.s "n1")]
      (some .or) [[("email", Val.s "e1"), ("deleted", Val.b false)]]) ∧
    (fsFindAllFiltered [("email", Val.s "e1"), ("name", Val.s "n1")] (some .or)
        [("r1", [("email", Val.s "e1"), ("deleted", Val.b false)])]).Perm
      (([("r1", [("email", Val.s "e1"), ("deleted", Val.b false)])].map
          (fun kd => kd.2)).filter
        (fun x => decide (claimOrMatch [("email", Val.s "e1"), ("name", Val.s "n1")] x))) ∧
    List.Sorted dcDescLe (fsFindAllFiltered [("email", Val.s "e1"), ("name", Val.s "n1")]
      (some .or) [("r1", [("email", Val.s "e1"), ("deleted", Val.b false)])]) ∧
    ([("email", Val.s "e1"), ("deleted", Val.b false)] ∈
        localFindAll [("email", Val.s "e1"), ("name", Val.s "n1")]
          (some [("r1:false", [("email", Val.s "e1"), ("deleted", Val.b false)])]) ↔
      ((∃ key, (key, [("email", Val.s "e1"), ("deleted", Val.b false)]) ∈
          [("r1:false", [("email", Val.s "e1"), ("deleted", Val.b false)])]) ∧
        ¬ itemDeletedTruthy [("email", Val.s "e1"), ("deleted", Val.b false)] ∧
        ∃ kv ∈ [("email", Val.s "e1"), ("name", Val.s "n1")],
          oget [("email", Val.s "e1"), ("deleted", Val.b false)] kv.1 = some kv.2)) := by
  have h := c3_or_filter_amended [("email", Val.s "e1"), ("name", Val.s "n1")]
    [("email", Val.s "e1"), ("deleted", Val.b false)]
    [("email", Val.s "e1"), ("deleted", Val.b false)]
    [[("email", Val.s "e1"), ("deleted", Val.b false)]]
    [("r1", [("email", Val.s "e1"), ("deleted", Val.b false)])]
    [("r1:false", [("email", Val.s "e1"), ("deleted", Val.b false)])]
  exact ⟨h.1, h.2.1 (by decide), h.2.2.1, h.2.2.2.1, h.2.2.2.2.1 (by decide),
    h.2.2.2.2.2.1, h.2.2.2.2.2.2⟩
